import Mathlib

/-!
Verification development for the overtime-request management system
(Next.js / Prisma / PostgreSQL repository).

The development shallowly embeds the concurrency-and-consistency engine of
the repository: the submit route (app/api/v1/overtime-requests, the file
appearing as unnamed part_004), the approval-decision route
(app/api/v1/overtime-requests/[id]/approvals/route.ts), the business-rule
validator (src/lib/overtime.ts, bundled in src/lib/errors.ts), the
idempotency gate (src/lib/idempotency.ts), the background worker
(src/worker/index.ts, bundled in src/app/api/v1/auth/route.ts) and the
database schema of the SQL migration (the file appearing as unnamed
part_014).

Modelling conventions:
 - timestamps are natural numbers counting minutes from an epoch that
   falls on a Sunday 00:00 (matching the Sunday-based week computation of
   the JavaScript code);
 - ids (UUIDs in the database) are natural numbers drawn from a counter;
 - JSONB payloads are carried as their serialized JSON text, built with
   the same key order the JavaScript code passes to JSON.stringify;
 - SHA-256 is implemented in full (FIPS 180-4) over UTF-8 bytes, as
   node's crypto.createHash("sha256").update(text).digest("hex") does.
-/

deriving instance DecidableEq for Except

namespace DES

/-! ### SHA-256 (FIPS 180-4), bytes and words as `Nat` reduced mod 2^32 -/

def w32 : Nat := 4294967296

def add32 (a b : Nat) : Nat := (a + b) % w32

def rotr (n x : Nat) : Nat := ((x >>> n) ||| (x <<< (32 - n))) % w32

def shr (n x : Nat) : Nat := x >>> n

def bSig0 (x : Nat) : Nat := (rotr 2 x) ^^^ (rotr 13 x) ^^^ (rotr 22 x)

def bSig1 (x : Nat) : Nat := (rotr 6 x) ^^^ (rotr 11 x) ^^^ (rotr 25 x)

def sSig0 (x : Nat) : Nat := (rotr 7 x) ^^^ (rotr 18 x) ^^^ (shr 3 x)

def sSig1 (x : Nat) : Nat := (rotr 17 x) ^^^ (rotr 19 x) ^^^ (shr 10 x)

def chf (x y z : Nat) : Nat := (x &&& y) ^^^ ((x ^^^ 4294967295) &&& z)

def majf (x y z : Nat) : Nat := (x &&& y) ^^^ (x &&& z) ^^^ (y &&& z)

def sha256K : List Nat :=
  [1116352408, 1899447441, 3049323471, 3921009573, 961987163, 1508970993, 2453635748, 2870763221,
   3624381080, 310598401, 607225278, 1426881987, 1925078388, 2162078206, 2614888103, 3248222580,
   3835390401, 4022224774, 264347078, 604807628, 770255983, 1249150122, 1555081692, 1996064986,
   2554220882, 2821834349, 2952996808, 3210313671, 3336571891, 3584528711, 113926993, 338241895,
   666307205, 773529912, 1294757372, 1396182291, 1695183700, 1986661051, 2177026350, 2456956037,
   2730485921, 2820302411, 3259730800, 3345764771, 3516065817, 3600352804, 4094571909, 275423344,
   430227734, 506948616, 659060556, 883997877, 958139571, 1322822218, 1537002063, 1747873779,
   1955562222, 2024104815, 2227730452, 2361852424, 2428436474, 2756734187, 3204031479, 3329325298]

def sha256init : List Nat :=
  [1779033703, 3144134277, 1013904242, 2773480762, 1359893119, 2600822924, 528734635, 1541459225]

/-- One step of the SHA-256 message-schedule extension: append word
`w16 = sSig1 w14 + w9 + sSig0 w1 + w0` (indices counted from the end). -/
def scheduleStep (ws : List Nat) : List Nat :=
  let i := ws.length
  ws ++ [add32 (add32 (sSig1 (ws.getD (i - 2) 0)) (ws.getD (i - 7) 0))
               (add32 (sSig0 (ws.getD (i - 15) 0)) (ws.getD (i - 16) 0))]

def schedule (block : List Nat) : List Nat :=
  (List.range 48).foldl (fun ws _ => scheduleStep ws) block

/-- One round of the SHA-256 compression function on the 8-word state. -/
def compressStep (st : List Nat) (kw : Nat × Nat) : List Nat :=
  match st with
  | [a, b, c, d, e, f, g, h] =>
    let t1 := add32 h (add32 (bSig1 e) (add32 (chf e f g) (add32 kw.1 kw.2)))
    let t2 := add32 (bSig0 a) (majf a b c)
    [add32 t1 t2, a, b, c, add32 d t1, e, f, g]
  | other => other

def compressBlock (h : List Nat) (block : List Nat) : List Nat :=
  let st := ((sha256K.zip (schedule block)).foldl compressStep h)
  List.zipWith add32 h st

/-- Big-endian packing of bytes into 32-bit words. -/
def bytesToWords : List Nat → List Nat
  | a :: b :: c :: d :: rest => (a * 16777216 + b * 65536 + c * 256 + d) :: bytesToWords rest
  | _ => []

/-- Split padded bytes into 16-word blocks; `fuel` bounds the recursion. -/
def toBlocks : Nat → List Nat → List (List Nat)
  | 0, _ => []
  | _, [] => []
  | fuel + 1, bs => bytesToWords (bs.take 64) :: toBlocks fuel (bs.drop 64)

/-- SHA-256 padding: 128, zeros to 56 mod 64, 8-byte big-endian bit length. -/
def padMessage (msg : List Nat) : List Nat :=
  let padLen := (119 - msg.length % 64) % 64
  let bitLen := msg.length * 8
  msg ++ [128] ++ List.replicate padLen 0 ++
    (List.range 8).map (fun i => (bitLen >>> ((7 - i) * 8)) % 256)

def wordToBytes (w : Nat) : List Nat :=
  [w / 16777216 % 256, w / 65536 % 256, w / 256 % 256, w % 256]

def sha256Bytes (msg : List Nat) : List Nat :=
  let padded := padMessage msg
  let hh := (toBlocks (padded.length) padded).foldl compressBlock sha256init
  (hh.map wordToBytes).flatten

def hexDigit (n : Nat) : Char := if n < 10 then Char.ofNat (48 + n) else Char.ofNat (87 + n)

def byteToHex (b : Nat) : List Char := [hexDigit (b / 16), hexDigit (b % 16)]

/-- UTF-8 encoding of one code point. -/
def utf8EncodeChar (n : Nat) : List Nat :=
  if n < 128 then [n]
  else if n < 2048 then [192 + n / 64, 128 + n % 64]
  else if n < 65536 then [224 + n / 4096, 128 + n / 64 % 64, 128 + n % 64]
  else [240 + n / 262144, 128 + n / 4096 % 64, 128 + n / 64 % 64, 128 + n % 64]

def utf8Bytes (s : String) : List Nat :=
  (s.data.map (fun c => utf8EncodeChar c.toNat)).flatten

/-- Hex digest of SHA-256 of a string, as node's
crypto.createHash("sha256").update(s).digest("hex") computes it. -/
def sha256hex (s : String) : String :=
  String.mk (((sha256Bytes (utf8Bytes s)).map byteToHex).flatten)

/-! ### Data model

Embedded from the SQL migration (unnamed part_014): enums RequestStatus and
ApprovalStatus, tables OvertimeRequest, ApprovalStep, AuditEntry,
IdempotencyKey, ApprovalChain/ApprovalChainStep, User, AttendanceLog.
Only the columns the embedded engine reads or writes are carried; pure
bookkeeping timestamp columns (created_at, updated_at, deleted_at,
decision_at, submitted_at, date) are omitted. -/

inductive RequestStatus where
  | DRAFT | SUBMITTED | PENDING | APPROVED | REJECTED | EXPIRED | CANCELED
deriving DecidableEq, Repr
inductive ApprovalStatus where
  | PENDING | APPROVED | REJECTED | SKIPPED
deriving DecidableEq, Repr
def RequestStatus.str : RequestStatus → String
  | .DRAFT => "DRAFT"
  | .SUBMITTED => "SUBMITTED"
  | .PENDING => "PENDING"
  | .APPROVED => "APPROVED"
  | .REJECTED => "REJECTED"
  | .EXPIRED => "EXPIRED"
  | .CANCELED => "CANCELED"

def ApprovalStatus.str : ApprovalStatus → String
  | .PENDING => "PENDING"
  | .APPROVED => "APPROVED"
  | .REJECTED => "REJECTED"
  | .SKIPPED => "SKIPPED"

/-- JavaScript String.prototype.toLowerCase on the enum values. -/
def ApprovalStatus.lower : ApprovalStatus → String
  | .PENDING => "pending"
  | .APPROVED => "approved"
  | .REJECTED => "rejected"
  | .SKIPPED => "skipped"

/-- The terminal request statuses excluded by the overlap queries:
status NOT IN REJECTED, CANCELED, EXPIRED. -/
def RequestStatus.isTerminal3 : RequestStatus → Bool
  | .REJECTED => true
  | .CANCELED => true
  | .EXPIRED => true
  | _ => false

structure OvertimeRequest where
  id : Nat
  userId : Nat
  start_time : Nat
  end_time : Nat
  total_minutes : Nat
  reason : Option String
  status : RequestStatus
  current_level : Nat
  max_level : Nat
  is_active : Bool
  row_version : Nat
deriving DecidableEq, Repr
structure ApprovalStep where
  id : Nat
  overtimeRequestId : Nat
  step_order : Nat
  approver_id : Option Nat
  status : ApprovalStatus
  comment : Option String
  row_version : Nat
deriving DecidableEq, Repr
structure AuditEntry where
  entity_table : String
  entity_id : Nat
  action : String
  performed_by : Option Nat
  diff : String
  sha256 : String
  previous_sha256 : Option String
deriving DecidableEq, Repr
structure IdempotencyKeyRec where
  key : String
  owner_id : Nat
  method : String
  path : String
  request_hash : Option String
  response_body : Option String
  used_at : Option Nat
deriving DecidableEq, Repr
structure ChainStepCfg where
  step_order : Nat
  userId : Option Nat
deriving DecidableEq, Repr
structure ApprovalChainRec where
  departmentId : Option Nat
  steps : List ChainStepCfg
deriving DecidableEq, Repr
structure UserRec where
  id : Nat
  departmentId : Option Nat
deriving DecidableEq, Repr
structure AttendanceLogRec where
  userId : Nat
  check_in : Nat
  verified : Bool
deriving DecidableEq, Repr
/-- The relational store. `audits` is kept in insertion order, which is
also performed_at order (the worker and routes stamp new Date() on each
insert). `nextId` models the id generator. -/
structure Store where
  users : List UserRec
  requests : List OvertimeRequest
  approvals : List ApprovalStep
  audits : List AuditEntry
  idempotencyKeys : List IdempotencyKeyRec
  chains : List ApprovalChainRec
  attendanceLogs : List AttendanceLogRec
  nextId : Nat
deriving DecidableEq, Repr
/-! ### Serialization helpers (JSON.stringify on the payload shapes the
code builds; object keys appear in the insertion order of the source). -/

def jsonStr (s : String) : String :=
  "\"" ++ (s.data.map (fun c =>
    if c = '"' then "\\\"" else if c = '\\' then "\\\\" else String.singleton c)).foldl
      (· ++ ·) "" ++ "\""

def jsonOfOptNat : Option Nat → String
  | none => "null"
  | some n => toString n

def jsonOfOptStr : Option String → String
  | none => "null"
  | some s => jsonStr s

/-- JavaScript `x || null` on an optional string: the empty string is falsy. -/
def jsOrNull : Option String → Option String
  | some "" => none
  | x => x

/-! ### Error taxonomy, from src/lib/errors.ts -/

inductive ConflictDetails where
  | currentStatus (status : ApprovalStatus)
  | versionMismatch (expected_version current_version : Nat)
  | conflictingIds (ids : List Nat)
deriving DecidableEq, Repr
inductive ApiError where
  | validationError (msg : String)
  | authenticationError (msg : String)
  | authorizationError (msg : String)
  | notFoundError (resource : String)
  | conflictError (msg : String) (details : ConflictDetails)
  | businessRuleViolation (msg : String) (violations : List String)
  | databaseError (msg : String)
deriving DecidableEq, Repr
/-! ### Store lookups (Prisma queries used by the routes) -/

def findRequest (s : Store) (id : Nat) : Option OvertimeRequest :=
  s.requests.find? (fun r => r.id == id)

def approvalsOf (s : Store) (reqId : Nat) : List ApprovalStep :=
  s.approvals.filter (fun a => a.overtimeRequestId == reqId)

def entriesFor (s : Store) (table : String) (eid : Nat) : List AuditEntry :=
  s.audits.filter (fun e => e.entity_table == table && e.entity_id == eid)

/-- findFirst ordered by performed_at desc, i.e. the most recently inserted
entry for the entity. -/
def lastAuditFor (s : Store) (table : String) (eid : Nat) : Option AuditEntry :=
  (entriesFor s table eid).getLast?

/-! ### Business-rule validation

Embedded from validateOvertimeRequest in src/lib/overtime.ts (bundled in
src/lib/errors.ts, lines 101-226) — the version the live submit routes
import. The PolicyConfig table is modelled as empty, so getPolicyConfig
returns null everywhere and the hard-coded defaultPolicies values apply
(240 min/day, 720 min/week, 3-day submission deadline). Rule 6 (night and
holiday pay multipliers) contributes no violations and is not carried. -/

def maxOvertimePerDay : Nat := 240

def maxOvertimePerWeek : Nat := 720

def submissionDeadlineDays : Nat := 3

def minutesPerDay : Nat := 1440

/-- getAttendanceLogs (src/lib/attendance.ts): verified logs with
check_in between startDate and endDate inclusive. -/
def getAttendanceLogs (s : Store) (userId startT endT : Nat) : List AttendanceLogRec :=
  s.attendanceLogs.filter (fun l =>
    l.userId == userId && startT ≤ l.check_in && l.check_in ≤ endT && l.verified)

/-- Rule 2 overlap query: strict (half-open) overlap test
start_time < endTime AND end_time > startTime over active, non-terminal
requests of the user. -/
def overlapsStrict (s : Store) (userId startT endT : Nat) : List OvertimeRequest :=
  s.requests.filter (fun r =>
    r.userId == userId && r.is_active && !r.status.isTerminal3 &&
    r.start_time < endT && r.end_time > startT)

/-- Week window of Rule 4: the JS code does
setDate(getDate() - getDay()) on a copy of startTime, keeping the time of
day (no setHours here), then adds seven days; the filter is start_time
gte weekStart, lt weekEnd. With a Sunday epoch, getDay is the day index
mod 7. -/
def weekStartOf (t : Nat) : Nat := t - ((t / minutesPerDay) % 7) * minutesPerDay

/-- Rule 4 aggregate: sum of total_minutes of the user's active,
non-terminal requests starting inside the week of startT. -/
def weeklyMinutes (s : Store) (userId startT : Nat) : Nat :=
  ((s.requests.filter (fun r =>
      r.userId == userId && r.is_active && !r.status.isTerminal3 &&
      weekStartOf startT ≤ r.start_time && r.start_time < weekStartOf startT + 7 * minutesPerDay)).map
    (fun r => r.total_minutes)).sum

/-- Rule 5: Math.floor((now - startTime) / msPerDay), in days; floor
division on integers so that a future startTime gives a negative count. -/
def daysSinceWork (now startT : Nat) : Int :=
  Int.fdiv ((now : Int) - (startT : Int)) (minutesPerDay : Int)

def dailyLimitMsg : String :=
  "Daily overtime limit exceeded. Maximum: " ++ toString (maxOvertimePerDay / 60) ++ " hours"

/-- The weekly message interpolates the running total; JavaScript renders
the float division, modelled here with Nat division of whole hours. -/
def weeklyLimitMsg (totalWeeklyMinutes : Nat) : String :=
  "Weekly overtime limit exceeded. Maximum: " ++ toString (maxOvertimePerWeek / 60) ++
    " hours, Current: " ++ toString (totalWeeklyMinutes / 60) ++ " hours"

def deadlineMsg : String :=
  "Submission deadline passed. Must submit within " ++ toString submissionDeadlineDays ++
    " days of work date"

def noAttendanceMsg : String := "No verified attendance logs found for this period"

def overlapMsg : String := "Overlapping overtime request already exists"

/-- validateOvertimeRequest (src/lib/overtime.ts): pushes one message per
violated rule into `violations` and never throws early, so every violated
rule is reported. Returns the violations list (the caller checks
`valid: violations.length === 0`). -/
def validateOvertimeRequest (s : Store) (userId startT endT durationMin now : Nat) :
    List String :=
  let v1 := if (getAttendanceLogs s userId startT endT).isEmpty then [noAttendanceMsg] else []
  let v2 := if !(overlapsStrict s userId startT endT).isEmpty then [overlapMsg] else []
  let v3 := if durationMin > maxOvertimePerDay then [dailyLimitMsg] else []
  let totalWeekly := weeklyMinutes s userId startT + durationMin
  let v4 := if totalWeekly > maxOvertimePerWeek then [weeklyLimitMsg totalWeekly] else []
  let v5 := if daysSinceWork now startT > (submissionDeadlineDays : Int) then [deadlineMsg] else []
  v1 ++ v2 ++ v3 ++ v4 ++ v5

/-! ### Approval-chain instantiation, from src/lib/overtime.ts -/

/-- getApprovalChain: load the user, then the first ApprovalChain of the
user's department (steps ordered by step_order). Throws DatabaseError
when the user row is missing. -/
def getApprovalChain (s : Store) (userId : Nat) :
    Except ApiError (Option ApprovalChainRec) :=
  match s.users.find? (fun u => u.id == userId) with
  | none => .error (.databaseError "User not found")
  | some user => .ok (s.chains.find? (fun c => c.departmentId == user.departmentId))

/-- createApprovalSteps: map the configured chain steps onto PENDING
ApprovalStep rows; BusinessRuleViolation when no chain is configured.
Fresh ids are drawn starting at `baseId`. -/
def createApprovalSteps (s : Store) (overtimeRequestId userId baseId : Nat) :
    Except ApiError (List ApprovalStep) :=
  match getApprovalChain s userId with
  | .error e => .error e
  | .ok none => .error (.businessRuleViolation
      "No approval chain configured for this department" [])
  | .ok (some chain) => .ok ((chain.steps.enum).map (fun p =>
      { id := baseId + p.1, overtimeRequestId := overtimeRequestId,
        step_order := p.2.step_order, approver_id := p.2.userId,
        status := .PENDING, comment := none, row_version := 1 }))

/-- The fallback chain of the submit route (part_004 lines 170-187): on
any createApprovalSteps failure, three PENDING steps with approver_id
null. -/
def fallbackSteps (overtimeRequestId baseId : Nat) : List ApprovalStep :=
  [1, 2, 3].map (fun i =>
    { id := baseId + (i - 1), overtimeRequestId := overtimeRequestId,
      step_order := i, approver_id := none,
      status := .PENDING, comment := none, row_version := 1 })

/-! ### Submit route, from POST /api/v1/overtime-requests (unnamed part_004) -/

/-- Closed-interval range overlap of the transaction pre-check:
tstzrange(a, b, two-sided closed) && tstzrange(c, d, two-sided closed). -/
def closedOverlap (s1 e1 s2 e2 : Nat) : Bool := s1 ≤ e2 && s2 ≤ e1

/-- The in-transaction FOR UPDATE SKIP LOCKED overlap query of the submit
route: active rows of the user whose status is not terminal and whose
closed window intersects the submitted closed window. -/
def overlapsClosed (s : Store) (userId startT endT : Nat) : List OvertimeRequest :=
  s.requests.filter (fun r =>
    r.userId == userId && r.is_active && !r.status.isTerminal3 &&
    closedOverlap r.start_time r.end_time startT endT)

/-- JSON.stringify of the created OvertimeRequest row (hash input of the
CREATE audit entry). Keys follow the model row; timestamps are numbers. -/
def stringifyRequestRow (r : OvertimeRequest) : String :=
  "\x7b\"id\":" ++ toString r.id ++
  ",\"userId\":" ++ toString r.userId ++
  ",\"start_time\":" ++ toString r.start_time ++
  ",\"end_time\":" ++ toString r.end_time ++
  ",\"total_minutes\":" ++ toString r.total_minutes ++
  ",\"reason\":" ++ jsonOfOptStr r.reason ++
  ",\"status\":" ++ jsonStr r.status.str ++
  ",\"current_level\":" ++ toString r.current_level ++
  ",\"max_level\":" ++ toString r.max_level ++
  ",\"is_active\":" ++ (if r.is_active then "true" else "false") ++
  ",\"row_version\":" ++ toString r.row_version ++ "\x7d"

/-- JSON.stringify of the request body (hash input of request_hash). -/
def stringifyBody (startT endT : Nat) (reason : Option String) : String :=
  "\x7b\"start_time\":" ++ toString startT ++ ",\"end_time\":" ++ toString endT ++
  ",\"reason\":" ++ jsonOfOptStr reason ++ "\x7d"

/-- The responseData payload cached for idempotent replays. -/
def stringifyResponseData (r : OvertimeRequest) : String :=
  "\x7b\"id\":" ++ toString r.id ++
  ",\"status\":" ++ jsonStr r.status.str ++
  ",\"start_time\":" ++ toString r.start_time ++
  ",\"end_time\":" ++ toString r.end_time ++
  ",\"total_minutes\":" ++ toString r.total_minutes ++ "\x7d"

inductive SubmitOutcome where
  | cached (response : String)
  | created (request : OvertimeRequest)
deriving DecidableEq, Repr
/-- POST /api/v1/overtime-requests (unnamed part_004): field checks,
idempotency-key replay, business validation, then one transaction doing
the locked closed-interval overlap check, the row insert, approval-step
creation with fallback, and the CREATE audit entry; finally the
idempotency upsert. A thrown error leaves the store untouched (the
transaction rolls back). -/
def submitOvertimeRequest (s : Store) (userId : Nat) (idempotencyKey : Option String)
    (start_time end_time : Option Nat) (reason : Option String) (now : Nat) :
    Store × Except ApiError SubmitOutcome :=
  match idempotencyKey with
  | none => (s, .error (.validationError "Missing X-Idempotency-Key header"))
  | some key =>
    match start_time, end_time with
    | none, _ => (s, .error (.validationError "start_time and end_time are required"))
    | _, none => (s, .error (.validationError "start_time and end_time are required"))
    | some startT, some endT =>
      if startT ≥ endT then
        (s, .error (.validationError "start_time must be before end_time"))
      else
        let durationMin := endT - startT
        if durationMin = 0 then
          (s, .error (.validationError "Duration must be at least 1 minute"))
        else
          match s.idempotencyKeys.find? (fun k => k.key == key) with
          | some existing =>
            match existing.response_body with
            | some body => (s, .ok (.cached body))
            | none => submitTail s userId key startT endT durationMin reason now true
          | none => submitTail s userId key startT endT durationMin reason now false

where
  /-- Validation, transaction and idempotency upsert of the submit route. -/
  submitTail (s : Store) (userId : Nat) (key : String)
      (startT endT durationMin : Nat) (reason : Option String) (now : Nat)
      (keyExists : Bool) : Store × Except ApiError SubmitOutcome :=
    let validation := validateOvertimeRequest s userId startT endT durationMin now
    if !validation.isEmpty then
      (s, .error (.businessRuleViolation "Overtime validation failed" validation))
    else
      let overlaps := overlapsClosed s userId startT endT
      if !overlaps.isEmpty then
        (s, .error (.conflictError "Overtime period overlaps with existing request"
          (.conflictingIds (overlaps.map (fun r => r.id)))))
      else
        let req : OvertimeRequest :=
          { id := s.nextId, userId := userId, start_time := startT, end_time := endT,
            total_minutes := durationMin, reason := jsOrNull reason,
            status := .SUBMITTED, current_level := 0, max_level := 3,
            is_active := true, row_version := 1 }
        let steps :=
          match createApprovalSteps s req.id userId (s.nextId + 1) with
          | .ok cfg => cfg
          | .error _ => fallbackSteps req.id (s.nextId + 1)
        let diffText := "\x7b\"created\":" ++ stringifyRequestRow req ++ "\x7d"
        let entry : AuditEntry :=
          { entity_table := "OvertimeRequest", entity_id := req.id, action := "CREATE",
            performed_by := some userId, diff := diffText,
            sha256 := sha256hex (stringifyRequestRow req), previous_sha256 := none }
        let rec1 : IdempotencyKeyRec :=
          { key := key, owner_id := userId, method := "POST",
            path := "/api/v1/overtime-requests",
            request_hash := some (sha256hex (stringifyBody startT endT reason)),
            response_body := some (stringifyResponseData req), used_at := some now }
        let idem1 :=
          if keyExists then
            s.idempotencyKeys.map (fun k =>
              if k.key == key then { k with used_at := some now } else k)
          else s.idempotencyKeys ++ [rec1]
        ({ s with requests := s.requests ++ [req],
                  approvals := s.approvals ++ steps,
                  audits := s.audits ++ [entry],
                  idempotencyKeys := idem1,
                  nextId := s.nextId + 1 + steps.length },
         .ok (.created req))

/-! ### Approval decision route, from
POST /api/v1/overtime-requests/[id]/approvals/route.ts -/

structure DecideResult where
  approval : ApprovalStep
  request : OvertimeRequest
  isFinalApproval : Bool
deriving DecidableEq, Repr
/-- The auditDiff object of the approval route, serialized in its key
insertion order. -/
def approvalAuditDiff (step_order : Nat) (new_status : ApprovalStatus)
    (comment : Option String) (request_status_after : RequestStatus) : String :=
  "\x7b\"action\":\"APPROVAL_UPDATE\",\"step_order\":" ++ toString step_order ++
  ",\"old_status\":\"PENDING\",\"new_status\":" ++ jsonStr new_status.str ++
  ",\"comment\":" ++ jsonOfOptStr (jsOrNull comment) ++
  ",\"request_status_after\":" ++ jsonStr request_status_after.str ++ "\x7d"

/-- The transaction body of the approval route: update the step, decide
whether the whole request flips to APPROVED or REJECTED, and append the
audit entry whose previous_sha256 is the latest entry of this step
(`lastAudit?.sha256 || null`). -/
def decideTransaction (s : Store) (overtimeRequest : OvertimeRequest)
    (approvalStep : ApprovalStep) (actorId step_order : Nat)
    (status : ApprovalStatus) (comment : Option String) :
    Store × Except ApiError DecideResult :=
  let updatedStep : ApprovalStep :=
    { approvalStep with status := status, comment := jsOrNull comment,
                        row_version := approvalStep.row_version + 1 }
  let s1 := { s with approvals := s.approvals.map (fun a =>
                if a.id == approvalStep.id then updatedStep else a) }
  let pendingSteps := (approvalsOf s1 overtimeRequest.id).filter
    (fun a => a.status == .PENDING)
  let finalApprove := status == .APPROVED && pendingSteps.isEmpty
  let newRequestStatus :=
    if finalApprove then RequestStatus.APPROVED
    else if status == .REJECTED then RequestStatus.REJECTED
    else overtimeRequest.status
  let updatedRequest : OvertimeRequest :=
    if finalApprove then
      { overtimeRequest with status := .APPROVED,
                             current_level := overtimeRequest.max_level,
                             row_version := overtimeRequest.row_version + 1 }
    else if status == .REJECTED then
      { overtimeRequest with status := .REJECTED,
                             row_version := overtimeRequest.row_version + 1 }
    else overtimeRequest
  let s2 :=
    if finalApprove || status == .REJECTED then
      { s1 with requests := s1.requests.map (fun r =>
          if r.id == overtimeRequest.id then updatedRequest else r) }
    else s1
  let diffText := approvalAuditDiff step_order status comment newRequestStatus
  let entry : AuditEntry :=
    { entity_table := "ApprovalStep", entity_id := approvalStep.id,
      action := "UPDATE", performed_by := some actorId, diff := diffText,
      sha256 := sha256hex diffText,
      previous_sha256 :=
        jsOrNull ((lastAuditFor s "ApprovalStep" approvalStep.id).map
          (fun e => e.sha256)) }
  ({ s2 with audits := s2.audits ++ [entry] },
   .ok { approval := updatedStep, request := updatedRequest,
         isFinalApproval := pendingSteps.isEmpty })

/-- POST /api/v1/overtime-requests/[id]/approvals: input checks (the
JavaScript `!step_order` is falsy at 0, and only APPROVED, REJECTED and
SKIPPED pass as status), lookups, assigned-approver check, approver row
check, already-decided check, optional optimistic-lock check, then the
transaction. Errors leave the store untouched. -/
def decideApproval (s : Store) (requestId actorId step_order : Nat)
    (status : ApprovalStatus) (comment : Option String)
    (row_version : Option Nat) : Store × Except ApiError DecideResult :=
  if step_order == 0 then
    (s, .error (.validationError "step_order and status are required"))
  else if status == .PENDING then
    (s, .error (.validationError "status must be APPROVED, REJECTED, or SKIPPED"))
  else
    match findRequest s requestId with
    | none => (s, .error (.notFoundError "Overtime request"))
    | some overtimeRequest =>
      match (approvalsOf s requestId).find? (fun a => a.step_order == step_order) with
      | none => (s, .error (.notFoundError "Approval step"))
      | some approvalStep =>
        if approvalStep.approver_id != some actorId then
          (s, .error (.authorizationError "Only the assigned approver can update this step"))
        else if (s.users.find? (fun u => u.id == actorId)).isNone then
          (s, .error (.authenticationError "Approver user not found"))
        else if approvalStep.status != .PENDING then
          (s, .error (.conflictError
            ("This approval step is already " ++ approvalStep.status.lower)
            (.currentStatus approvalStep.status)))
        else
          match row_version with
          | some v =>
            if overtimeRequest.row_version ≠ v then
              (s, .error (.conflictError
                "Request was modified by another user. Please refresh and try again."
                (.versionMismatch v overtimeRequest.row_version)))
            else decideTransaction s overtimeRequest approvalStep actorId step_order status comment
          | none => decideTransaction s overtimeRequest approvalStep actorId step_order status comment

/-! ### Background worker, from src/worker/index.ts (bundled at the end of
src/app/api/v1/auth/route.ts) -/

/-- escalateStalleddApprovals, per selected row: the SQL picks only
PENDING steps (older than the timeout, SKIP LOCKED); each is set to
SKIPPED with an audit entry whose hash input is the two-field summary
object and whose previous_sha256 is always null; when the parent request
has no PENDING step left it is set to EXPIRED. A step that is missing or
no longer PENDING is not selected, leaving the store unchanged. The age
cutoff and locking are not modelled: the step to process is given. -/
def escalateStalledStep (s : Store) (stepId : Nat) : Store :=
  match s.approvals.find? (fun (a : ApprovalStep) => a.id == stepId && a.status == .PENDING) with
  | none => s
  | some step =>
    let updated : ApprovalStep :=
      { step with status := .SKIPPED, row_version := step.row_version + 1,
                  comment := some "Auto-skipped due to timeout" }
    let s1 := { s with approvals := s.approvals.map (fun (a : ApprovalStep) =>
                  if a.id == step.id then updated else a) }
    let hashed := "\x7b\"action\":\"ESCALATE\",\"step_id\":" ++ toString step.id ++ "\x7d"
    let diffText :=
      "\x7b\"old_status\":\"PENDING\",\"new_status\":\"SKIPPED\",\"reason\":\"Auto-escalation timeout\"\x7d"
    let entry : AuditEntry :=
      { entity_table := "ApprovalStep", entity_id := step.id, action := "ESCALATE",
        performed_by := none, diff := diffText, sha256 := sha256hex hashed,
        previous_sha256 := none }
    let s2 := { s1 with audits := s1.audits ++ [entry] }
    match findRequest s2 step.overtimeRequestId with
    | none => s2
    | some request =>
      let hasPending := (approvalsOf s2 request.id).any (fun a => a.status == .PENDING)
      if hasPending then s2
      else
        { s2 with requests := s2.requests.map (fun r =>
            if r.id == request.id then
              { r with status := .EXPIRED, row_version := r.row_version + 1 }
            else r) }

/-- expireDraftRequests, per selected row: the SQL picks active DRAFT
requests older than the cutoff; each is set to EXPIRED with an audit
entry (hash input is the two-field summary, previous_sha256 always null).
A request that is missing, inactive or not DRAFT is not selected. -/
def expireDraftRequest (s : Store) (reqId : Nat) : Store :=
  match s.requests.find? (fun (r : OvertimeRequest) =>
      r.id == reqId && r.status == .DRAFT && r.is_active) with
  | none => s
  | some draft =>
    let s1 := { s with requests := s.requests.map (fun (r : OvertimeRequest) =>
                  if r.id == draft.id then
                    { r with status := .EXPIRED, row_version := r.row_version + 1 }
                  else r) }
    let hashed := "\x7b\"action\":\"EXPIRE\",\"id\":" ++ toString draft.id ++ "\x7d"
    let diffText :=
      "\x7b\"old_status\":\"DRAFT\",\"new_status\":\"EXPIRED\",\"reason\":\"Auto-expiration\"\x7d"
    let entry : AuditEntry :=
      { entity_table := "OvertimeRequest", entity_id := draft.id, action := "EXPIRE",
        performed_by := none, diff := diffText, sha256 := sha256hex hashed,
        previous_sha256 := none }
    { s1 with audits := s1.audits ++ [entry] }

/-! ### Idempotency gate, from src/lib/idempotency.ts -/

structure IdemResult where
  duplicate : Bool
  response : Option String
deriving DecidableEq, Repr
/-- runWithIdempotency: a found key returns its cached response_body
without invoking fn; otherwise a placeholder row is inserted, fn runs,
and its result and used_at are stored on the row. -/
def runWithIdempotency (s : Store) (key : String) (ownerId : Nat) (path : String)
    (fn : Store → Store × String) (now : Nat) : Store × IdemResult :=
  match s.idempotencyKeys.find? (fun r => r.key == key) with
  | some existing => (s, { duplicate := true, response := existing.response_body })
  | none =>
    let s1 := { s with idempotencyKeys := s.idempotencyKeys ++
      [{ key := key, owner_id := ownerId, method := "POST", path := path,
         request_hash := none, response_body := none, used_at := none }] }
    let (s2, result) := fn s1
    let s3 := { s2 with idempotencyKeys := s2.idempotencyKeys.map (fun r =>
      if r.key == key then { r with response_body := some result, used_at := some now }
      else r) }
    (s3, { duplicate := false, response := some result })

/-! ### Database-level window constraint, from the migration (unnamed
part_014, lines 564-573)

The migration creates
  CREATE UNIQUE INDEX overtime_request_overlap_active_idx
    ON OvertimeRequest (userId, tstzrange(start_at, end_at, closed))
    WHERE is_active = true
A unique B-tree index rejects two rows exactly when their whole key —
the pair of userId and the (un-normalised, continuous) range value —
is equal, i.e. when both endpoints coincide. -/

def overlapIdxKey (r : OvertimeRequest) : Nat × Nat × Nat :=
  (r.userId, r.start_time, r.end_time)

/-- Whether a set of rows is accepted by overtime_request_overlap_active_idx:
no two distinct active rows share the index key. -/
def uniqueOverlapActiveIdxOk (rs : List OvertimeRequest) : Bool :=
  List.Pairwise (fun a b => overlapIdxKey a ≠ overlapIdxKey b) (rs.filter (fun r => r.is_active))
    |> decide

/-- The spec invariant on committed states: windows of active requests of
one owner whose status is not terminal are pairwise non-overlapping under
the closed-interval overlap test. -/
def activeWindowsNonOverlapping (rs : List OvertimeRequest) : Bool :=
  List.Pairwise
    (fun a b => a.userId = b.userId → closedOverlap a.start_time a.end_time b.start_time b.end_time = false)
    (rs.filter (fun r => r.is_active && !r.status.isTerminal3))
    |> decide

/-! ### Chain verification -/

/-- The hash input required by the spec (section 4.4): a canonical JSON
serialization of the object with keys action, actor, diff and
previous_hash, in that order, with the structured diff payload embedded
as JSON. -/
def canonicalAuditPayload (action : String) (actor : Option Nat) (diff : String)
    (previous_hash : Option String) : String :=
  "\x7b\"action\":" ++ jsonStr action ++ ",\"actor\":" ++ jsonOfOptNat actor ++
  ",\"diff\":" ++ diff ++ ",\"previous_hash\":" ++ jsonOfOptStr previous_hash ++ "\x7d"

/-- Whether a stored audit entry's content hash is the SHA-256 of the
spec's canonical serialization, given the acting identity recorded on it. -/
def entryMatchesSpecHash (e : AuditEntry) : Bool :=
  e.sha256 == sha256hex (canonicalAuditPayload e.action e.performed_by e.diff e.previous_sha256)

/-- Walks the hash chain of one entity: each entry's previous_sha256 must
equal the predecessor's sha256 (none for the first entry). -/
def chainOk : List AuditEntry → Option String → Bool
  | [], _ => true
  | e :: rest, prev => e.previous_sha256 == prev && chainOk rest (some e.sha256)

inductive ChainResult where
  | valid
  | brokenAt (entryIndex : Nat)
deriving DecidableEq, Repr
/-- Modelled from the spec: the repository exposes no verifyChain
implementation, only the contract
`verifyChain(entityTable, entityId) -> valid | brokenAt(entryId)`
(spec section 4.4). The walk visits the entity's entries in order,
confirming each previous_hash against the prior content_hash; the first
mismatching entry is reported by its position in the chain (the model's
stand-in for the row id). -/
def verifyChainWalk : List AuditEntry → Option String → Nat → ChainResult
  | [], _, _ => .valid
  | e :: rest, prev, i =>
    if e.previous_sha256 == prev then verifyChainWalk rest (some e.sha256) (i + 1)
    else .brokenAt i

/-- Modelled from the spec: verifyChain over the stored audit entries of
one entity. -/
def verifyChain (s : Store) (table : String) (eid : Nat) : ChainResult :=
  verifyChainWalk (entriesFor s table eid) none 0

/-! ### Reachability: committed states produced by the core operations -/

/-- States reachable from an initial store (arbitrary configuration
tables, no requests, steps, audit entries or idempotency records) by the
core operations: submit, decide, approval escalation and draft
expiration. Failing calls return the unchanged store, so every outcome is
covered by taking the first projection. -/
inductive Reachable : Store → Prop where
  | init (users : List UserRec) (chains : List ApprovalChainRec)
      (attendanceLogs : List AttendanceLogRec) (nextId : Nat) :
      Reachable { users := users, requests := [], approvals := [], audits := [],
                  idempotencyKeys := [], chains := chains,
                  attendanceLogs := attendanceLogs, nextId := nextId }
  | submit {s : Store} (userId : Nat) (idempotencyKey : Option String)
      (start_time end_time : Option Nat) (reason : Option String) (now : Nat) :
      Reachable s →
      Reachable (submitOvertimeRequest s userId idempotencyKey start_time end_time reason now).1
  | decide {s : Store} (requestId actorId step_order : Nat)
      (status : ApprovalStatus) (comment : Option String) (row_version : Option Nat) :
      Reachable s →
      Reachable (decideApproval s requestId actorId step_order status comment row_version).1
  | escalate {s : Store} (stepId : Nat) : Reachable s → Reachable (escalateStalledStep s stepId)
  | expire {s : Store} (reqId : Nat) : Reachable s → Reachable (expireDraftRequest s reqId)

/-! ### Helper lemmas: chain extension -/

/-- The hash that a correctly chained new entry must reference: the last
entry's sha256, or the running `prev` when the list is empty. -/
def chainTip (l : List AuditEntry) (prev : Option String) : Option String :=
  match l.getLast? with
  | some x => some x.sha256
  | none => prev

/-! ### The committed-state invariant -/

/-- Invariant of committed stores: audit entity ids and step ids stay
below the id counter, content hashes are never the empty string, step ids
are unique, a PENDING step has no audit entries yet, no request is a
DRAFT, and every entity's audit chain is correctly linked. -/
structure Inv (s : Store) : Prop where
  auditFresh : ∀ e ∈ s.audits, e.entity_id < s.nextId
  shaOk : ∀ e ∈ s.audits, e.sha256 ≠ ""
  stepsFresh : ∀ a ∈ s.approvals, a.id < s.nextId
  stepsNodup : (s.approvals.map (fun a => a.id)).Nodup
  pendingClean : ∀ a ∈ s.approvals, a.status = .PENDING →
    entriesFor s "ApprovalStep" a.id = []
  noDraft : ∀ r ∈ s.requests, r.status ≠ .DRAFT
  chainsOk : ∀ t eid, chainOk (entriesFor s t eid) none = true

/-- The PENDING steps of request `rid` other than step `aid`: after a
decision on `aid`, these are exactly the steps still pending. -/
def pendAfter (s : Store) (rid aid : Nat) : List ApprovalStep :=
  (approvalsOf s rid).filter
    (fun x => (x.status == ApprovalStatus.PENDING) && !(x.id == aid))

/-! ### Claim fixtures -/

/-- The terminal lifecycle statuses of a request (spec section 4.3):
APPROVED, REJECTED, EXPIRED and CANCELED. -/
def RequestStatus.isTerminalLifecycle : RequestStatus → Bool
  | .APPROVED => true
  | .REJECTED => true
  | .EXPIRED => true
  | .CANCELED => true
  | _ => false

def c2Req : OvertimeRequest :=
  { id := 1, userId := 5, start_time := 1080, end_time := 1200, total_minutes := 120,
    reason := none, status := .SUBMITTED, current_level := 0, max_level := 3,
    is_active := true, row_version := 1 }

def c2Store : Store :=
  { users := [], requests := [c2Req], approvals := [], audits := [],
    idempotencyKeys := [], chains := [],
    attendanceLogs := [{ userId := 5, check_in := 1150, verified := true }],
    nextId := 2 }

def c3Step : ApprovalStep :=
  { id := 2, overtimeRequestId := 1, step_order := 1, approver_id := some 7,
    status := .PENDING, comment := none, row_version := 1 }

def c3Store : Store :=
  { users := [{ id := 7, departmentId := none }],
    requests := [{ id := 1, userId := 5, start_time := 1080, end_time := 1200,
                   total_minutes := 120, reason := none, status := .SUBMITTED,
                   current_level := 0, max_level := 3, is_active := true,
                   row_version := 1 }],
    approvals := [c3Step], audits := [], idempotencyKeys := [], chains := [],
    attendanceLogs := [], nextId := 3 }

def c4Req : OvertimeRequest :=
  { id := 1, userId := 5, start_time := 1080, end_time := 1200, total_minutes := 120,
    reason := none, status := .REJECTED, current_level := 0, max_level := 3,
    is_active := true, row_version := 2 }

def c4Step2 : ApprovalStep :=
  { id := 3, overtimeRequestId := 1, step_order := 2, approver_id := some 7,
    status := .PENDING, comment := none, row_version := 1 }

def c4Store : Store :=
  { users := [{ id := 7, departmentId := none }, { id := 8, departmentId := none }],
    requests := [c4Req],
    approvals := [{ id := 2, overtimeRequestId := 1, step_order := 1,
                    approver_id := some 7, status := .REJECTED, comment := none,
                    row_version := 2 },
                  c4Step2,
                  { id := 4, overtimeRequestId := 1, step_order := 3,
                    approver_id := some 8, status := .PENDING, comment := none,
                    row_version := 1 }],
    audits := [], idempotencyKeys := [], chains := [], attendanceLogs := [],
    nextId := 5 }

def c5Store : Store :=
  { users := [{ id := 7, departmentId := none }],
    requests := [{ id := 1, userId := 5, start_time := 1080, end_time := 1200,
                   total_minutes := 120, reason := none, status := .SUBMITTED,
                   current_level := 0, max_level := 3, is_active := true,
                   row_version := 5 }],
    approvals := [{ id := 2, overtimeRequestId := 1, step_order := 1,
                    approver_id := some 7, status := .APPROVED, comment := none,
                    row_version := 2 }],
    audits := [], idempotencyKeys := [], chains := [], attendanceLogs := [],
    nextId := 3 }

def c5wReq : OvertimeRequest :=
  { id := 1, userId := 5, start_time := 1080, end_time := 1200, total_minutes := 120,
    reason := none, status := .SUBMITTED, current_level := 0, max_level := 3,
    is_active := true, row_version := 5 }

def c5wStep : ApprovalStep :=
  { id := 2, overtimeRequestId := 1, step_order := 1, approver_id := some 7,
    status := .PENDING, comment := none, row_version := 1 }

def c5wStore : Store :=
  { users := [{ id := 7, departmentId := none }], requests := [c5wReq],
    approvals := [c5wStep], audits := [], idempotencyKeys := [], chains := [],
    attendanceLogs := [], nextId := 3 }

def c6Step : ApprovalStep :=
  { id := 2, overtimeRequestId := 1, step_order := 1, approver_id := some 7,
    status := .PENDING, comment := none, row_version := 1 }

def c6Req : OvertimeRequest :=
  { id := 1, userId := 5, start_time := 1080, end_time := 1200, total_minutes := 120,
    reason := none, status := .REJECTED, current_level := 0, max_level := 3,
    is_active := true, row_version := 2 }

def c6Store : Store :=
  { users := [{ id := 7, departmentId := none }], requests := [c6Req],
    approvals := [c6Step], audits := [], idempotencyKeys := [], chains := [],
    attendanceLogs := [], nextId := 3 }

/-- An initial store with every table empty. -/
def emptyStore0 : Store :=
  { users := [], requests := [], approvals := [], audits := [],
    idempotencyKeys := [], chains := [], attendanceLogs := [], nextId := 0 }

def c8Req : OvertimeRequest :=
  { id := 1, userId := 5, start_time := 600, end_time := 1100, total_minutes := 500,
    reason := none, status := .SUBMITTED, current_level := 0, max_level := 3,
    is_active := true, row_version := 1 }

def c8Store : Store :=
  { users := [], requests := [c8Req], approvals := [], audits := [],
    idempotencyKeys := [], chains := [],
    attendanceLogs := [{ userId := 5, check_in := 50, verified := true }],
    nextId := 2 }

def c9Init : Store :=
  { users := [], requests := [], approvals := [], audits := [],
    idempotencyKeys := [], chains := [],
    attendanceLogs := [{ userId := 5, check_in := 80, verified := true }],
    nextId := 7 }

def c10Req : OvertimeRequest :=
  { id := 1, userId := 5, start_time := 1080, end_time := 1200, total_minutes := 120,
    reason := none, status := .SUBMITTED, current_level := 0, max_level := 3,
    is_active := true, row_version := 1 }

def c10Step : ApprovalStep :=
  { id := 2, overtimeRequestId := 1, step_order := 1, approver_id := none,
    status := .PENDING, comment := none, row_version := 1 }

def c10Store : Store :=
  { users := [{ id := 7, departmentId := none }], requests := [c10Req],
    approvals := [c10Step], audits := [], idempotencyKeys := [], chains := [],
    attendanceLogs := [], nextId := 3 }

/-- Self-test against the FIPS 180-4 test vector for "abc". -/
theorem sha256hex_abc :
    sha256hex "abc" = "ba7816bf8f01cfea414140de5dae2223b00361a396177a9cb410ff61f20015ad" := by
  decide

/-! ### Helper lemmas: the digest is never empty -/

theorem compressStep_length (st : List Nat) (kw : Nat × Nat) :
    (compressStep st kw).length = st.length := by
  unfold compressStep
  split <;> simp

theorem foldl_compressStep_length (l : List (Nat × Nat)) (st : List Nat) :
    (l.foldl compressStep st).length = st.length := by
  induction l generalizing st with
  | nil => rfl
  | cons x xs ih => simp [List.foldl, ih, compressStep_length]

theorem compressBlock_length (h : List Nat) (b : List Nat) :
    (compressBlock h b).length = h.length := by
  simp [compressBlock, List.length_zipWith, foldl_compressStep_length]

theorem foldl_compressBlock_length (bs : List (List Nat)) (h : List Nat) :
    (bs.foldl compressBlock h).length = h.length := by
  induction bs generalizing h with
  | nil => rfl
  | cons b rest ih => simp [List.foldl, ih, compressBlock_length]

theorem sha256Bytes_length (msg : List Nat) : (sha256Bytes msg).length = 32 := by
  have hsum : ∀ l : List Nat, (l.map (List.length ∘ wordToBytes)).sum = 4 * l.length := by
    intro l
    induction l with
    | nil => rfl
    | cons a t ih => simp [wordToBytes, ih]; ring
  simp only [sha256Bytes, List.length_flatten, List.map_map]
  rw [hsum, foldl_compressBlock_length]
  rfl

theorem sha256hex_ne_empty (s : String) : sha256hex s ≠ "" := by
  intro h
  have hsum : ∀ l : List Nat, (l.map (List.length ∘ byteToHex)).sum = 2 * l.length := by
    intro l
    induction l with
    | nil => rfl
    | cons a t ih => simp [byteToHex, ih]; ring
  have hlen : (((sha256Bytes (utf8Bytes s)).map byteToHex).flatten).length = 64 := by
    rw [List.length_flatten, List.map_map, hsum, sha256Bytes_length]
  have hdata : (((sha256Bytes (utf8Bytes s)).map byteToHex).flatten) = [] := by
    have h2 := congrArg String.data h
    simpa [sha256hex] using h2
  rw [hdata] at hlen
  simp at hlen

theorem chainTip_cons (x : AuditEntry) (xs : List AuditEntry) (prev : Option String) :
    chainTip (x :: xs) prev = chainTip xs (some x.sha256) := by
  cases xs with
  | nil => rfl
  | cons y ys =>
    obtain ⟨z, hz⟩ := Option.isSome_iff_exists.mp
      (List.getLast?_isSome.mpr (List.cons_ne_nil y ys))
    simp [chainTip, List.getLast?_cons_cons, hz]

theorem chainOk_append_singleton (l : List AuditEntry) (e : AuditEntry) (prev : Option String) :
    chainOk (l ++ [e]) prev =
      (chainOk l prev && (e.previous_sha256 == chainTip l prev)) := by
  induction l generalizing prev with
  | nil => simp [chainOk, chainTip]
  | cons x xs ih =>
    simp only [List.cons_append, chainOk, List.append_eq, ih, chainTip_cons]
    rw [Bool.and_assoc]

theorem jsOrNull_tip (l : List AuditEntry) (hsha : ∀ x ∈ l, x.sha256 ≠ "") :
    jsOrNull (l.getLast?.map (fun e => e.sha256)) = chainTip l none := by
  cases hl : l.getLast? with
  | none => simp [chainTip, hl, jsOrNull]
  | some x =>
    have hx : x.sha256 ≠ "" := hsha x (List.mem_of_mem_getLast? hl)
    simp only [chainTip, hl, Option.map_some]
    unfold jsOrNull
    split
    · next heq => simp at heq; exact absurd heq hx
    · rfl

theorem entriesFor_audits (s : Store) (t : String) (eid : Nat) :
    entriesFor s t eid =
      s.audits.filter (fun e => e.entity_table == t && e.entity_id == eid) := rfl

/-- Appending one entry whose previous_sha256 is the tip of its own
entity's chain keeps every entity chain linked. -/
theorem chainsOk_append (auds : List AuditEntry) (e : AuditEntry)
    (hc : ∀ t eid,
      chainOk (auds.filter (fun x => x.entity_table == t && x.entity_id == eid)) none = true)
    (hprev : e.previous_sha256 =
      chainTip (auds.filter
        (fun x => x.entity_table == e.entity_table && x.entity_id == e.entity_id)) none) :
    ∀ t eid,
      chainOk ((auds ++ [e]).filter
        (fun x => x.entity_table == t && x.entity_id == eid)) none = true := by
  intro t eid
  rw [List.filter_append]
  by_cases hkey : e.entity_table = t ∧ e.entity_id = eid
  · obtain ⟨h1, h2⟩ := hkey
    have hfe : [e].filter (fun x => x.entity_table == t && x.entity_id == eid) = [e] := by
      simp [List.filter, h1, h2]
    rw [hfe, chainOk_append_singleton, hc t eid, ← h1, ← h2, ← hprev]
    simp
  · have hbe : (e.entity_table == t && e.entity_id == eid) = false := by
      by_contra hb
      rw [Bool.not_eq_false, Bool.and_eq_true, beq_iff_eq, beq_iff_eq] at hb
      exact hkey hb
    have hfe : [e].filter (fun x => x.entity_table == t && x.entity_id == eid) = [] := by
      simp [List.filter, hbe]
    rw [hfe, List.append_nil]
    exact hc t eid

/-- Appending one entry for an entity with no prior entries and a null
previous_sha256 keeps every entity chain linked. -/
theorem chainsOk_append_first (auds : List AuditEntry) (e : AuditEntry)
    (hc : ∀ t eid,
      chainOk (auds.filter (fun x => x.entity_table == t && x.entity_id == eid)) none = true)
    (hempty : auds.filter
      (fun x => x.entity_table == e.entity_table && x.entity_id == e.entity_id) = [])
    (hprev : e.previous_sha256 = none) :
    ∀ t eid,
      chainOk ((auds ++ [e]).filter
        (fun x => x.entity_table == t && x.entity_id == eid)) none = true := by
  apply chainsOk_append auds e hc
  rw [hempty, hprev]
  rfl

/-- Invariant preservation for the common transaction shape: update steps
in place (preserving ids), update requests in place (never producing a
DRAFT), and append one audit entry correctly chained to its entity. -/
theorem inv_append_update (s : Store) (h : Inv s)
    (f : ApprovalStep → ApprovalStep) (g : OvertimeRequest → OvertimeRequest)
    (entry : AuditEntry)
    (hfid : ∀ a, (f a).id = a.id)
    (hfpend : ∀ a ∈ s.approvals, (f a).status = .PENDING → f a = a ∧ a.status = .PENDING)
    (hg : ∀ r ∈ s.requests, r.status ≠ .DRAFT → (g r).status ≠ .DRAFT)
    (hid : entry.entity_id < s.nextId)
    (hsha : entry.sha256 ≠ "")
    (hprev : entry.previous_sha256 =
      chainTip (entriesFor s entry.entity_table entry.entity_id) none)
    (hpc : ∀ a ∈ s.approvals, (f a).status = .PENDING →
        (entry.entity_table == "ApprovalStep" && entry.entity_id == a.id) = false) :
    Inv { s with approvals := s.approvals.map f,
                 requests := s.requests.map g,
                 audits := s.audits ++ [entry] } := by
  constructor
  · intro e he
    rcases List.mem_append.mp he with h1 | h1
    · exact h.auditFresh e h1
    · rw [List.mem_singleton] at h1
      subst h1
      exact hid
  · intro e he
    rcases List.mem_append.mp he with h1 | h1
    · exact h.shaOk e h1
    · rw [List.mem_singleton] at h1
      subst h1
      exact hsha
  · intro a' ha'
    rcases List.mem_map.mp ha' with ⟨a, ha, rfl⟩
    rw [hfid]
    exact h.stepsFresh a ha
  · have hmm : (s.approvals.map f).map (fun a => a.id) = s.approvals.map (fun a => a.id) := by
      rw [List.map_map]
      exact List.map_congr_left (fun a _ => hfid a)
    show ((s.approvals.map f).map (fun a => a.id)).Nodup
    rw [hmm]
    exact h.stepsNodup
  · intro a' ha' hp
    rcases List.mem_map.mp ha' with ⟨a, ha, rfl⟩
    obtain ⟨hfa, hap⟩ := hfpend a ha hp
    have h1 : entriesFor s "ApprovalStep" a.id = [] := h.pendingClean a ha hap
    rw [entriesFor_audits] at h1 ⊢
    show ((s.audits ++ [entry]).filter _) = []
    rw [List.filter_append, hfid, h1]
    have h2 := hpc a ha hp
    simp [List.filter, h2]
  · intro r' hr'
    rcases List.mem_map.mp hr' with ⟨r, hr, rfl⟩
    exact hg r hr (h.noDraft r hr)
  · intro t eid
    have := chainsOk_append s.audits entry
      (fun t2 e2 => h.chainsOk t2 e2) hprev t eid
    rw [entriesFor_audits]
    exact this

/-- Variant of `inv_append_update` leaving the requests untouched. -/
theorem inv_append_update_nog (s : Store) (h : Inv s)
    (f : ApprovalStep → ApprovalStep) (entry : AuditEntry)
    (hfid : ∀ a, (f a).id = a.id)
    (hfpend : ∀ a ∈ s.approvals, (f a).status = .PENDING → f a = a ∧ a.status = .PENDING)
    (hid : entry.entity_id < s.nextId)
    (hsha : entry.sha256 ≠ "")
    (hprev : entry.previous_sha256 =
      chainTip (entriesFor s entry.entity_table entry.entity_id) none)
    (hpc : ∀ a ∈ s.approvals, (f a).status = .PENDING →
        (entry.entity_table == "ApprovalStep" && entry.entity_id == a.id) = false) :
    Inv { s with approvals := s.approvals.map f,
                 audits := s.audits ++ [entry] } := by
  have := inv_append_update s h f id entry hfid hfpend
    (fun r _ hd => hd) hid hsha hprev hpc
  rwa [List.map_id] at this

/-- The draft-expiration sweep never fires on a store without DRAFT
requests. -/
theorem expireDraftRequest_eq_self (s : Store)
    (hnd : ∀ r ∈ s.requests, r.status ≠ .DRAFT) (reqId : Nat) :
    expireDraftRequest s reqId = s := by
  unfold expireDraftRequest
  cases hf : s.requests.find? (fun (r : OvertimeRequest) =>
      r.id == reqId && r.status == .DRAFT && r.is_active) with
  | none => rfl
  | some draft =>
    have hmem : draft ∈ s.requests := List.mem_of_find?_eq_some hf
    have hpred := List.find?_some hf
    simp only [Bool.and_eq_true, beq_iff_eq] at hpred
    exact absurd hpred.1.2 (hnd draft hmem)

theorem inv_expire (s : Store) (h : Inv s) (reqId : Nat) :
    Inv (expireDraftRequest s reqId) := by
  rw [expireDraftRequest_eq_self s h.noDraft reqId]
  exact h

theorem inv_escalate (s : Store) (h : Inv s) (stepId : Nat) :
    Inv (escalateStalledStep s stepId) := by
  unfold escalateStalledStep
  split
  · exact h
  · next step hf =>
    have hmem : step ∈ s.approvals := List.mem_of_find?_eq_some hf
    have hpred := List.find?_some hf
    simp only [Bool.and_eq_true, beq_iff_eq] at hpred
    have hstat : step.status = .PENDING := hpred.2
    have hchainempty : entriesFor s "ApprovalStep" step.id = [] :=
      h.pendingClean step hmem hstat
    have hfid : ∀ a : ApprovalStep,
        ((fun (a : ApprovalStep) =>
          if a.id == step.id then
            { step with status := ApprovalStatus.SKIPPED,
                        row_version := step.row_version + 1,
                        comment := some "Auto-skipped due to timeout" }
          else a) a).id = a.id := by
      intro a
      by_cases hb : (a.id == step.id) = true
      · simp only [if_pos hb]
        rw [beq_iff_eq] at hb
        exact hb.symm
      · simp only [if_neg hb]
    have hfpend : ∀ a ∈ s.approvals,
        ((fun (a : ApprovalStep) =>
          if a.id == step.id then
            { step with status := ApprovalStatus.SKIPPED,
                        row_version := step.row_version + 1,
                        comment := some "Auto-skipped due to timeout" }
          else a) a).status = .PENDING →
        (if a.id == step.id then
            { step with status := ApprovalStatus.SKIPPED,
                        row_version := step.row_version + 1,
                        comment := some "Auto-skipped due to timeout" }
          else a) = a ∧ a.status = .PENDING := by
      intro a _ hp
      by_cases hb : (a.id == step.id) = true
      · simp only [if_pos hb] at hp
        exact absurd hp (by simp)
      · simp only [if_neg hb] at hp
        exact ⟨if_neg hb, hp⟩
    have hpc : ∀ a ∈ s.approvals,
        ((fun (a : ApprovalStep) =>
          if a.id == step.id then
            { step with status := ApprovalStatus.SKIPPED,
                        row_version := step.row_version + 1,
                        comment := some "Auto-skipped due to timeout" }
          else a) a).status = .PENDING →
        (("ApprovalStep" == "ApprovalStep") && (step.id == a.id)) = false := by
      intro a _ hp
      by_cases hb : (a.id == step.id) = true
      · simp only [if_pos hb] at hp
        exact absurd hp (by simp)
      · have hne : a.id ≠ step.id := by simpa using hb
        simp [Ne.symm hne]
    have hprev : (none : Option String) =
        chainTip (entriesFor s "ApprovalStep" step.id) none := by
      rw [hchainempty]
      rfl
    have hbase := inv_append_update_nog s h _
      { entity_table := "ApprovalStep", entity_id := step.id, action := "ESCALATE",
        performed_by := none,
        diff := "\x7b\"old_status\":\"PENDING\",\"new_status\":\"SKIPPED\",\"reason\":\"Auto-escalation timeout\"\x7d",
        sha256 := sha256hex ("\x7b\"action\":\"ESCALATE\",\"step_id\":" ++ toString step.id ++ "\x7d"),
        previous_sha256 := none }
      hfid hfpend (h.stepsFresh step hmem) (sha256hex_ne_empty _) hprev hpc
    lift_lets
    extract_lets updated s1 hashed diffText entry s2
    split
    · exact hbase
    · next request _ =>
      lift_lets
      extract_lets hasPending
      split
      · exact hbase
      · refine ⟨hbase.auditFresh, hbase.shaOk, hbase.stepsFresh, hbase.stepsNodup,
          hbase.pendingClean, ?_, hbase.chainsOk⟩
        intro r' hr'
        rcases List.mem_map.mp hr' with ⟨r, hr, rfl⟩
        by_cases hb : (r.id == request.id) = true
        · simp only [if_pos hb]
          simp
        · simp only [if_neg hb]
          exact hbase.noDraft r hr

theorem inv_decideTransaction (s : Store) (h : Inv s)
    (req : OvertimeRequest) (step : ApprovalStep) (actorId so : Nat)
    (status : ApprovalStatus) (comment : Option String)
    (hmem : step ∈ s.approvals) (hstat : status ≠ .PENDING) :
    Inv (decideTransaction s req step actorId so status comment).1 := by
  have hshas : ∀ x ∈ entriesFor s "ApprovalStep" step.id, x.sha256 ≠ "" := by
    intro x hx
    exact h.shaOk x (List.mem_filter.mp hx).1
  have hprevgen : jsOrNull ((lastAuditFor s "ApprovalStep" step.id).map (fun e => e.sha256)) =
      chainTip (entriesFor s "ApprovalStep" step.id) none := jsOrNull_tip _ hshas
  unfold decideTransaction
  lift_lets
  extract_lets updatedStep s1 pendingSteps finalApprove newRequestStatus updatedRequest s2 diffText entry
  show Inv { s2 with audits := s2.audits ++ [entry] }
  have hfid : ∀ a : ApprovalStep,
      ((fun (a : ApprovalStep) => if a.id == step.id then updatedStep else a) a).id = a.id := by
    intro a
    by_cases hb : (a.id == step.id) = true
    · simp only [if_pos hb]
      rw [beq_iff_eq] at hb
      show updatedStep.id = a.id
      unfold_let updatedStep
      exact hb.symm
    · simp only [if_neg hb]
  have hfpend : ∀ a ∈ s.approvals,
      ((fun (a : ApprovalStep) => if a.id == step.id then updatedStep else a) a).status = .PENDING →
      (if a.id == step.id then updatedStep else a) = a ∧ a.status = .PENDING := by
    intro a _ hp
    by_cases hb : (a.id == step.id) = true
    · simp only [if_pos hb] at hp
      exact absurd hp hstat
    · simp only [if_neg hb] at hp
      exact ⟨if_neg hb, hp⟩
  have hpc : ∀ a ∈ s.approvals,
      ((fun (a : ApprovalStep) => if a.id == step.id then updatedStep else a) a).status = .PENDING →
      ((entry.entity_table == "ApprovalStep") && (entry.entity_id == a.id)) = false := by
    intro a _ hp
    by_cases hb : (a.id == step.id) = true
    · simp only [if_pos hb] at hp
      exact absurd hp hstat
    · have hne : a.id ≠ step.id := by simpa using hb
      have : entry.entity_id = step.id := rfl
      have h2 : (entry.entity_id == a.id) = false := by
        rw [this]
        exact beq_eq_false_iff_ne.mpr (Ne.symm hne)
      rw [h2, Bool.and_false]
  have hid : entry.entity_id < s.nextId := h.stepsFresh step hmem
  have hsha : entry.sha256 ≠ "" := sha256hex_ne_empty _
  have hprev : entry.previous_sha256 =
      chainTip (entriesFor s entry.entity_table entry.entity_id) none := hprevgen
  unfold_let s2
  by_cases hcond : (finalApprove || (status == ApprovalStatus.REJECTED)) = true
  · rw [if_pos hcond]
    refine inv_append_update s h _ _ entry hfid hfpend ?_ hid hsha hprev hpc
    intro r _ hrd
    by_cases hb : (r.id == req.id) = true
    · simp only [if_pos hb]
      show updatedRequest.status ≠ RequestStatus.DRAFT
      unfold_let updatedRequest
      by_cases hfa : finalApprove = true
      · rw [if_pos hfa]
        simp
      · rw [if_neg hfa]
        have hrj : (status == ApprovalStatus.REJECTED) = true := by
          rcases Bool.or_eq_true_iff.mp hcond with hx | hx
          · exact absurd hx hfa
          · exact hx
        rw [if_pos hrj]
        simp
    · simp only [if_neg hb]
      exact hrd
  · rw [if_neg hcond]
    exact inv_append_update_nog s h _ entry hfid hfpend hid hsha hprev hpc

theorem inv_decide (s : Store) (h : Inv s) (requestId actorId so : Nat)
    (status : ApprovalStatus) (comment : Option String) (rv : Option Nat) :
    Inv (decideApproval s requestId actorId so status comment rv).1 := by
  unfold decideApproval
  split
  · exact h
  · split
    · exact h
    · next hstat0 =>
      have hstat : status ≠ ApprovalStatus.PENDING := by simpa using hstat0
      split
      · exact h
      · next overtimeRequest hreq =>
        split
        · exact h
        · next approvalStep hstep =>
          have hmem : approvalStep ∈ s.approvals :=
            (List.mem_filter.mp (List.mem_of_find?_eq_some hstep)).1
          split
          · exact h
          · split
            · exact h
            · split
              · exact h
              · split
                · split
                  · exact h
                  · exact inv_decideTransaction s h overtimeRequest approvalStep
                      actorId so status comment hmem hstat
                · exact inv_decideTransaction s h overtimeRequest approvalStep
                    actorId so status comment hmem hstat

theorem fallbackSteps_idmap (rid base : Nat) :
    (fallbackSteps rid base).map (fun a => a.id) =
      (List.range 3).map (fun i => base + i) := by
  simp [fallbackSteps, List.range_succ]

theorem createApprovalSteps_idmap (s : Store) (rid uid base : Nat)
    (steps : List ApprovalStep)
    (hc : createApprovalSteps s rid uid base = .ok steps) :
    steps.map (fun a => a.id) =
      (List.range steps.length).map (fun i => base + i) := by
  unfold createApprovalSteps at hc
  split at hc
  · exact absurd hc (by simp)
  · exact absurd hc (by simp)
  · next chain _ =>
    rw [Except.ok.injEq] at hc
    subst hc
    rw [List.map_map, List.length_map]
    have h1 : ((fun (a : ApprovalStep) => a.id) ∘
        (fun (p : Nat × ChainStepCfg) =>
          ({ id := base + p.1, overtimeRequestId := rid, step_order := p.2.step_order,
             approver_id := p.2.userId, status := .PENDING, comment := none,
             row_version := 1 } : ApprovalStep))) =
        (fun (i : Nat) => base + i) ∘ Prod.fst := rfl
    rw [h1, ← List.map_map, List.enum_map_fst, List.enum_length]

/-- Invariant preservation for the successful submit transaction: a new
request row with id nextId, approval-step rows with consecutive fresh
ids, and one CREATE audit entry for the fresh request id. -/
theorem inv_submit_shape (s : Store) (h : Inv s)
    (req : OvertimeRequest) (steps : List ApprovalStep) (entry : AuditEntry)
    (idem1 : List IdempotencyKeyRec)
    (hrstat : req.status ≠ .DRAFT)
    (hidmap : steps.map (fun a => a.id) =
      (List.range steps.length).map (fun i => s.nextId + 1 + i))
    (hent : entry.entity_table = "OvertimeRequest" ∧ entry.entity_id = s.nextId ∧
            entry.previous_sha256 = none)
    (hsha : entry.sha256 ≠ "") :
    Inv { s with requests := s.requests ++ [req],
                 approvals := s.approvals ++ steps,
                 audits := s.audits ++ [entry],
                 idempotencyKeys := idem1,
                 nextId := s.nextId + 1 + steps.length } := by
  obtain ⟨het, hei, hep⟩ := hent
  have hidbound : ∀ st ∈ steps, s.nextId < st.id ∧ st.id < s.nextId + 1 + steps.length := by
    intro st hst
    have hmm : st.id ∈ steps.map (fun a => a.id) := List.mem_map_of_mem _ hst
    rw [hidmap] at hmm
    rcases List.mem_map.mp hmm with ⟨i, hi, heqi⟩
    rw [List.mem_range] at hi
    omega
  have hnewnd : (steps.map (fun a => a.id)).Nodup := by
    rw [hidmap]
    exact (List.nodup_range _).map (fun a b hab => by omega)
  have ho011 : ∀ e ∈ s.audits, e.entity_id < s.nextId := h.auditFresh
  constructor
  all_goals dsimp only
  · intro e he
    rcases List.mem_append.mp he with h1 | h1
    · have := h.auditFresh e h1
      omega
    · rw [List.mem_singleton] at h1
      subst h1
      omega
  · intro e he
    rcases List.mem_append.mp he with h1 | h1
    · exact h.shaOk e h1
    · rw [List.mem_singleton] at h1
      subst h1
      exact hsha
  · intro a ha
    rcases List.mem_append.mp ha with h1 | h1
    · have := h.stepsFresh a h1
      omega
    · exact (hidbound a h1).2
  · show ((s.approvals ++ steps).map (fun a => a.id)).Nodup
    rw [List.map_append, List.nodup_append]
    refine ⟨h.stepsNodup, hnewnd, ?_⟩
    intro x hx hx2
    rcases List.mem_map.mp hx with ⟨a, ha, rfl⟩
    rcases List.mem_map.mp hx2 with ⟨b, hb, hba⟩
    have h1 := h.stepsFresh a ha
    have h2 := (hidbound b hb).1
    omega
  · intro a ha hap
    show ((s.audits ++ [entry]).filter
      (fun e => e.entity_table == "ApprovalStep" && e.entity_id == a.id)) = []
    rw [List.filter_append]
    rcases List.mem_append.mp ha with h1 | h1
    · have hold : entriesFor s "ApprovalStep" a.id = [] := h.pendingClean a h1 hap
      rw [entriesFor_audits] at hold
      rw [hold]
      have : (entry.entity_table == "ApprovalStep") = false := by
        rw [het]
        decide
      simp [List.filter, this]
    · have hgt := (hidbound a h1).1
      have hfo : s.audits.filter
          (fun e => e.entity_table == "ApprovalStep" && e.entity_id == a.id) = [] := by
        rw [List.filter_eq_nil_iff]
        intro e he hecl
        rw [Bool.and_eq_true, beq_iff_eq, beq_iff_eq] at hecl
        have := h.auditFresh e he
        omega
      rw [hfo]
      have : (entry.entity_id == a.id) = false := by
        rw [hei]
        exact beq_eq_false_iff_ne.mpr (by omega)
      simp [List.filter, this]
  · intro r hr
    rcases List.mem_append.mp hr with h1 | h1
    · exact h.noDraft r h1
    · rw [List.mem_singleton] at h1
      subst h1
      exact hrstat
  · intro t eid
    show chainOk ((s.audits ++ [entry]).filter
      (fun e => e.entity_table == t && e.entity_id == eid)) none = true
    apply chainsOk_append_first s.audits entry (fun t2 e2 => h.chainsOk t2 e2) _ hep
    rw [List.filter_eq_nil_iff]
    intro e he hecl
    rw [Bool.and_eq_true, beq_iff_eq, beq_iff_eq] at hecl
    have := h.auditFresh e he
    omega

theorem inv_submitTail (s : Store) (h : Inv s) (userId : Nat) (key : String)
    (startT endT durationMin : Nat) (reason : Option String) (now : Nat)
    (keyExists : Bool) :
    Inv (submitOvertimeRequest.submitTail s userId key startT endT durationMin
      reason now keyExists).1 := by
  unfold submitOvertimeRequest.submitTail
  lift_lets
  extract_lets validation overlaps req steps diffText entry rec1 idem1
  split
  · exact h
  · split
    · exact h
    · show Inv { s with requests := s.requests ++ [req],
                        approvals := s.approvals ++ steps,
                        audits := s.audits ++ [entry],
                        idempotencyKeys := idem1,
                        nextId := s.nextId + 1 + steps.length }
      have hidmap : steps.map (fun a => a.id) =
          (List.range steps.length).map (fun i => s.nextId + 1 + i) := by
        unfold_let steps
        cases hc : createApprovalSteps s req.id userId (s.nextId + 1) with
        | ok cfg =>
          dsimp only
          exact createApprovalSteps_idmap s req.id userId (s.nextId + 1) cfg hc
        | error e =>
          dsimp only
          exact fallbackSteps_idmap req.id (s.nextId + 1)
      refine inv_submit_shape s h req steps entry idem1 ?_ hidmap ⟨rfl, rfl, rfl⟩
        (sha256hex_ne_empty _)
      show RequestStatus.SUBMITTED ≠ RequestStatus.DRAFT
      decide

theorem inv_submit (s : Store) (h : Inv s) (userId : Nat) (k : Option String)
    (st et : Option Nat) (reason : Option String) (now : Nat) :
    Inv (submitOvertimeRequest s userId k st et reason now).1 := by
  unfold submitOvertimeRequest
  split
  · exact h
  · split
    · exact h
    · exact h
    · split
      · exact h
      · lift_lets
        extract_lets durationMin
        split
        · exact h
        · split
          · split
            · exact h
            · exact inv_submitTail s h userId _ _ _ _ reason now true
          · exact inv_submitTail s h userId _ _ _ _ reason now false

/-- Every reachable committed store satisfies the invariant. -/
theorem reachable_inv {s : Store} (h : Reachable s) : Inv s := by
  induction h with
  | init users chains logs n =>
    refine ⟨?_, ?_, ?_, ?_, ?_, ?_, ?_⟩ <;> simp [entriesFor, chainOk]
  | submit uid k st et r now _ ih => exact inv_submit _ ih uid k st et r now
  | decide rid aid so st c rv _ ih => exact inv_decide _ ih rid aid so st c rv
  | escalate sid _ ih => exact inv_escalate _ ih sid
  | expire rid _ ih => exact inv_expire _ ih rid

theorem verifyChainWalk_valid (l : List AuditEntry) (prev : Option String) (i : Nat)
    (h : chainOk l prev = true) : verifyChainWalk l prev i = .valid := by
  induction l generalizing prev i with
  | nil => rfl
  | cons e rest ih =>
    unfold chainOk at h
    rw [Bool.and_eq_true] at h
    unfold verifyChainWalk
    rw [if_pos h.1]
    exact ih _ _ h.2

/-- Successful decide transactions append exactly one audit entry, whose
content hash is the SHA-256 of its own serialized diff and whose
previous_sha256 is the tip of its entity's chain. -/
theorem decideTransaction_audits (s : Store) (req : OvertimeRequest)
    (step : ApprovalStep) (actorId so : Nat) (status : ApprovalStatus)
    (comment : Option String)
    (hsha : ∀ x ∈ entriesFor s "ApprovalStep" step.id, x.sha256 ≠ "") :
    ∃ e, (decideTransaction s req step actorId so status comment).1.audits =
           s.audits ++ [e] ∧
         e.entity_table = "ApprovalStep" ∧ e.entity_id = step.id ∧
         e.sha256 = sha256hex e.diff ∧
         e.previous_sha256 = chainTip (entriesFor s "ApprovalStep" step.id) none := by
  unfold decideTransaction
  lift_lets
  extract_lets updatedStep s1 pendingSteps finalApprove newRequestStatus updatedRequest s2 diffText entry
  refine ⟨entry, ?_, rfl, rfl, rfl, ?_⟩
  · show ({ s2 with audits := s2.audits ++ [entry] }).audits = s.audits ++ [entry]
    unfold_let s2
    by_cases hcond : (finalApprove || (status == ApprovalStatus.REJECTED)) = true
    · rw [if_pos hcond]
    · rw [if_neg hcond]
  · exact jsOrNull_tip _ hsha

/-- Filtering after an in-place update that the filter rejects keeps
exactly the old rows that pass the filter and are not the updated one. -/
theorem filter_map_update {α : Type} (l : List α) (upd : α)
    (p q : α → Bool) (hq : q upd = false) :
    (l.map (fun x => if p x then upd else x)).filter q
      = l.filter (fun x => q x && !(p x)) := by
  induction l with
  | nil => rfl
  | cons x xs ih =>
    by_cases hb : p x = true
    · simp only [List.map_cons, List.filter_cons, hb, eq_self_iff_true, if_true, hq,
        Bool.not_true, Bool.and_false, Bool.false_eq_true, if_false]
      exact ih
    · rw [Bool.not_eq_true] at hb
      simp only [List.map_cons, List.filter_cons, hb, Bool.false_eq_true, if_false,
        Bool.not_false, Bool.and_true]
      cases hqx : q x with
      | true =>
        simp only [hqx, if_true]
        rw [ih]
      | false =>
        simp only [hqx, Bool.false_eq_true, if_false]
        exact ih

/-- When every pre-transaction check passes, the decide route runs the
transaction. -/
theorem decideApproval_success (s : Store) (requestId actorId so : Nat)
    (status : ApprovalStatus) (comment : Option String) (rv : Option Nat)
    (r : OvertimeRequest) (a : ApprovalStep)
    (hso : (so == 0) = false)
    (hst : (status == ApprovalStatus.PENDING) = false)
    (hreq : findRequest s requestId = some r)
    (hstep : (approvalsOf s requestId).find? (fun x => x.step_order == so) = some a)
    (happr : a.approver_id = some actorId)
    (huser : (s.users.find? (fun u => u.id == actorId)).isNone = false)
    (hpend : a.status = .PENDING)
    (hver : rv = none ∨ rv = some r.row_version) :
    decideApproval s requestId actorId so status comment rv =
      decideTransaction s r a actorId so status comment := by
  unfold decideApproval
  rw [hreq, hstep]
  simp only [hso, hst, Bool.false_eq_true, if_false, happr, hpend, huser]
  rcases hver with hv | hv
  · subst hv
    simp
  · subst hv
    simp

theorem decideTransaction_branches (s : Store) (r : OvertimeRequest)
    (a : ApprovalStep) (actorId so : Nat) (status : ApprovalStatus)
    (comment : Option String)
    (hstat : (status == ApprovalStatus.PENDING) = false) :
    ∃ res, (decideTransaction s r a actorId so status comment).2 = .ok res ∧
      res.isFinalApproval = (pendAfter s r.id a.id).isEmpty ∧
      (status = .REJECTED →
        res.request.status = .REJECTED ∧ res.request.row_version = r.row_version + 1) ∧
      (status = .APPROVED → pendAfter s r.id a.id = [] →
        res.request.status = .APPROVED ∧ res.request.current_level = r.max_level ∧
        res.request.row_version = r.row_version + 1) ∧
      ((status = .APPROVED → pendAfter s r.id a.id ≠ []) → status ≠ .REJECTED →
        res.request = r) ∧
      (approvalsOf (decideTransaction s r a actorId so status comment).1 r.id).filter
          (fun x => x.status == ApprovalStatus.PENDING) = pendAfter s r.id a.id := by
  unfold decideTransaction
  lift_lets
  extract_lets updatedStep s1 pendingSteps finalApprove newRequestStatus updatedRequest s2 diffText entry
  have hps : pendingSteps = pendAfter s r.id a.id := by
    show (approvalsOf s1 r.id).filter (fun x => x.status == ApprovalStatus.PENDING) =
      pendAfter s r.id a.id
    unfold_let s1
    unfold approvalsOf pendAfter approvalsOf
    show ((s.approvals.map (fun x => if x.id == a.id then updatedStep else x)).filter
        (fun x => x.overtimeRequestId == r.id)).filter
        (fun x => x.status == ApprovalStatus.PENDING) = _
    rw [List.filter_filter, List.filter_filter]
    rw [filter_map_update s.approvals updatedStep
      (fun x => x.id == a.id)
      (fun x => (x.status == ApprovalStatus.PENDING) && (x.overtimeRequestId == r.id))
      (by show ((status == ApprovalStatus.PENDING) &&
            (updatedStep.overtimeRequestId == r.id)) = false
          rw [hstat, Bool.false_and])]
    apply List.filter_congr
    intro (x : ApprovalStep) _
    cases x.status == ApprovalStatus.PENDING <;>
      cases x.overtimeRequestId == r.id <;>
      cases x.id == a.id <;> rfl
  have hpending2 : (approvalsOf ({ s2 with audits := s2.audits ++ [entry] }) r.id).filter
      (fun x => x.status == ApprovalStatus.PENDING) = pendAfter s r.id a.id := by
    have haps : ({ s2 with audits := s2.audits ++ [entry] }).approvals = s1.approvals := by
      show s2.approvals = s1.approvals
      unfold_let s2
      by_cases hcond : (finalApprove || (status == ApprovalStatus.REJECTED)) = true
      · rw [if_pos hcond]
      · rw [if_neg hcond]
    show ((({ s2 with audits := s2.audits ++ [entry] }).approvals).filter
        (fun (x : ApprovalStep) => x.overtimeRequestId == r.id)).filter
        (fun (x : ApprovalStep) => x.status == ApprovalStatus.PENDING) = _
    rw [haps]
    exact hps
  refine ⟨_, rfl, ?_, ?_, ?_, ?_, hpending2⟩
  · show pendingSteps.isEmpty = (pendAfter s r.id a.id).isEmpty
    rw [hps]
  · intro hrj
    subst hrj
    exact ⟨rfl, rfl⟩
  · intro ha hpe
    subst ha
    have hfe : finalApprove = true := by
      show ((ApprovalStatus.APPROVED == ApprovalStatus.APPROVED) &&
        pendingSteps.isEmpty) = true
      rw [hps, hpe]
      rfl
    have hur : updatedRequest =
        { r with status := .APPROVED, current_level := r.max_level,
                 row_version := r.row_version + 1 } := by
      show (if finalApprove = true then
              ({ r with status := .APPROVED, current_level := r.max_level,
                        row_version := r.row_version + 1 } : OvertimeRequest)
            else if (ApprovalStatus.APPROVED == ApprovalStatus.REJECTED) = true then
              { r with status := .REJECTED, row_version := r.row_version + 1 }
            else r) = _
      rw [if_pos hfe]
    refine ⟨?_, ?_, ?_⟩
    · show updatedRequest.status = RequestStatus.APPROVED
      rw [hur]
    · show updatedRequest.current_level = r.max_level
      rw [hur]
    · show updatedRequest.row_version = r.row_version + 1
      rw [hur]
  · intro himp hnr
    have hfa : finalApprove = false := by
      show ((status == ApprovalStatus.APPROVED) && pendingSteps.isEmpty) = false
      by_cases hap : status = ApprovalStatus.APPROVED
      · subst hap
        have hne : pendingSteps.isEmpty = false := by
          rw [hps]
          cases hpa : pendAfter s r.id a.id with
          | nil => exact absurd hpa (himp rfl)
          | cons y ys => rfl
        rw [hne, Bool.and_false]
      · rw [beq_eq_false_iff_ne.mpr hap, Bool.false_and]
    have hnrb : (status == ApprovalStatus.REJECTED) = false := beq_eq_false_iff_ne.mpr hnr
    show (if finalApprove = true then
            ({ r with status := .APPROVED, current_level := r.max_level,
                      row_version := r.row_version + 1 } : OvertimeRequest)
          else if (status == ApprovalStatus.REJECTED) = true then
            { r with status := .REJECTED, row_version := r.row_version + 1 }
          else r) = r
    rw [hfa, hnrb]
    simp

/-- A submit whose business validation reports any violation fails with
BusinessRuleViolation carrying the whole violations list, and the store
is unchanged. -/
theorem submit_validation_error (s : Store) (userId startT endT now : Nat)
    (key : String) (reason : Option String)
    (hkey : s.idempotencyKeys.find? (fun k => k.key == key) = none)
    (hlt : startT < endT)
    (hne : validateOvertimeRequest s userId startT endT (endT - startT) now ≠ []) :
    submitOvertimeRequest s userId (some key) (some startT) (some endT) reason now =
      (s, .error (.businessRuleViolation "Overtime validation failed"
        (validateOvertimeRequest s userId startT endT (endT - startT) now))) := by
  unfold submitOvertimeRequest
  dsimp only
  rw [if_neg (by omega), if_neg (by omega), hkey]
  unfold submitOvertimeRequest.submitTail
  dsimp only
  rw [if_pos (by rw [Bool.not_eq_true']; exact List.isEmpty_eq_false.mpr hne)]

theorem find?_key_after_update (l : List IdempotencyKeyRec) (key : String)
    (now : Nat) (res : String)
    (hnone : l.find? (fun r => r.key == key) = none)
    (rec0 : IdempotencyKeyRec) (hrec : rec0.key = key) :
    ((l ++ [rec0]).map (fun r =>
        if r.key == key then { r with response_body := some res, used_at := some now }
        else r)).find? (fun r => r.key == key) =
      some { rec0 with response_body := some res, used_at := some now } := by
  induction l with
  | nil =>
    have hb : (rec0.key == key) = true := by rw [hrec]; simp
    simp [List.map, List.find?, hb, hrec]
  | cons x xs ih =>
    rw [List.find?_cons] at hnone
    cases hx : (x.key == key) with
    | true => rw [hx] at hnone; exact absurd hnone (by simp)
    | false =>
      rw [hx] at hnone
      simp only [List.cons_append, List.map_cons, hx, Bool.false_eq_true, if_false]
      rw [List.find?_cons, hx]
      exact ih hnone

/-! ### Claim theorems -/

/-- C1: the migration's overtime_request_overlap_active_idx is a plain
UNIQUE index on the pair of userId and the closed range value, although
its own comment says it prevents overlapping ranges. It only rejects two
active rows with identical endpoints, so two distinct overlapping active
windows of one owner are both accepted by the database-level constraint,
violating the pairwise non-overlap invariant. -/
theorem c1_unique_index_admits_overlapping_windows :
    uniqueOverlapActiveIdxOk
      [{ id := 1, userId := 5, start_time := 0, end_time := 600, total_minutes := 600,
         reason := none, status := .SUBMITTED, current_level := 0, max_level := 3,
         is_active := true, row_version := 1 },
       { id := 2, userId := 5, start_time := 300, end_time := 900, total_minutes := 600,
         reason := none, status := .SUBMITTED, current_level := 0, max_level := 3,
         is_active := true, row_version := 1 }] = true ∧
    activeWindowsNonOverlapping
      [{ id := 1, userId := 5, start_time := 0, end_time := 600, total_minutes := 600,
         reason := none, status := .SUBMITTED, current_level := 0, max_level := 3,
         is_active := true, row_version := 1 },
       { id := 2, userId := 5, start_time := 300, end_time := 900, total_minutes := 600,
         reason := none, status := .SUBMITTED, current_level := 0, max_level := 3,
         is_active := true, row_version := 1 }] = false := by
  decide

/-- C2 (counterexample): submitting the window 1140-1260 for user 5 while
the active SUBMITTED request 1080-1200 of the same user exists fails with
BusinessRuleViolation from the pre-transaction validator — not with
ConflictError carrying the overlapping id — and the store is unchanged. -/
theorem c2_counterexample :
    submitOvertimeRequest c2Store 5 (some "key1") (some 1140) (some 1260) none 1200 =
      (c2Store, .error (.businessRuleViolation "Overtime validation failed"
        ["Overlapping overtime request already exists"])) := by
  decide

/-- C2 (amended): a submit whose window strictly overlaps an existing
active, non-terminal request of the same owner fails — with
BusinessRuleViolation whose violations list the overlap (the
in-transaction ConflictError carrying conflicting ids is reachable only
when the strict pre-check misses the overlap, e.g. for windows that only
touch at an endpoint under the closed-interval test) — and the store is
unchanged: no request, approval-step or audit row is persisted. -/
theorem c2_overlap_submit_fails (s : Store) (userId startT endT now : Nat)
    (key : String) (reason : Option String) (r : OvertimeRequest)
    (hkey : s.idempotencyKeys.find? (fun k => k.key == key) = none)
    (hlt : startT < endT)
    (hmem : r ∈ s.requests) (huser : r.userId = userId) (hact : r.is_active = true)
    (hterm : r.status.isTerminal3 = false)
    (hov1 : r.start_time < endT) (hov2 : startT < r.end_time) :
    submitOvertimeRequest s userId (some key) (some startT) (some endT) reason now =
      (s, .error (.businessRuleViolation "Overtime validation failed"
        (validateOvertimeRequest s userId startT endT (endT - startT) now))) ∧
    overlapMsg ∈ validateOvertimeRequest s userId startT endT (endT - startT) now := by
  have hovmem : r ∈ overlapsStrict s userId startT endT := by
    rw [overlapsStrict, List.mem_filter]
    refine ⟨hmem, ?_⟩
    simp [huser, hact, hterm, hov1, hov2]
  have hovne : (overlapsStrict s userId startT endT).isEmpty = false := by
    rw [List.isEmpty_eq_false]
    intro hnil
    rw [hnil] at hovmem
    exact absurd hovmem (List.not_mem_nil r)
  have hmemv : overlapMsg ∈ validateOvertimeRequest s userId startT endT (endT - startT) now := by
    unfold validateOvertimeRequest
    rw [hovne]
    simp
  refine ⟨?_, hmemv⟩
  apply submit_validation_error s userId startT endT now key reason hkey hlt
  intro hnil
  rw [hnil] at hmemv
  exact absurd hmemv (List.not_mem_nil _)

/-- C2 (witness): the amended statement applied to the concrete fixture. -/
theorem c2_overlap_submit_fails_witness :
    submitOvertimeRequest c2Store 5 (some "key1") (some 1140) (some 1260) none 1200 =
      (c2Store, .error (.businessRuleViolation "Overtime validation failed"
        (validateOvertimeRequest c2Store 5 1140 1260 (1260 - 1140) 1200))) ∧
    overlapMsg ∈ validateOvertimeRequest c2Store 5 1140 1260 (1260 - 1140) 1200 :=
  c2_overlap_submit_fails c2Store 5 1140 1260 1200 "key1" none c2Req
    rfl (by decide) (by decide) rfl rfl rfl (by decide) (by decide)

/-- C6: the decide route never checks the parent request's status.
Deciding the still-PENDING step of the REJECTED request c6Req with
APPROVED silently succeeds (no 4xx error) and, being the last pending
step, flips the terminal REJECTED request to APPROVED. -/
theorem c6_decide_on_rejected_request_silently_succeeds :
    (decideApproval c6Store 1 7 1 .APPROVED none none).2 =
      Except.ok { approval := { c6Step with status := .APPROVED, row_version := 2 },
                  request :=
                    { c6Req with status := .APPROVED, current_level := 3, row_version := 3 },
                  isFinalApproval := true } ∧
    RequestStatus.isTerminalLifecycle c6Req.status = true := by
  constructor
  · decide
  · decide

/-- C4 (counterexample): deciding the PENDING step 2 of the REJECTED
request c4Req with APPROVED while step 3 stays PENDING succeeds, takes
the no-request-update branch, and leaves the parent in the terminal
status REJECTED — not in a non-terminal status as the claim states. -/
theorem c4_counterexample :
    (decideApproval c4Store 1 7 2 .APPROVED none none).2 =
      Except.ok { approval := { c4Step2 with status := .APPROVED, row_version := 2 },
                  request := c4Req, isFinalApproval := false } ∧
    RequestStatus.isTerminalLifecycle c4Req.status = true := by
  constructor
  · decide
  · decide

/-- C5 (counterexample): a decide call supplying expected row_version 4
against current row_version 5, on a step that is already APPROVED, fails
with ConflictError whose details carry only current_status — not the
expected and actual version — because the already-decided check precedes
the optimistic-lock check. -/
theorem c5_counterexample :
    decideApproval c5Store 1 7 1 .APPROVED none (some 4) =
      (c5Store, .error (.conflictError "This approval step is already approved"
        (.currentStatus .APPROVED))) := by
  decide

/-- C5 (amended): a decide call that passes the lookup, assigned-approver
and step-still-PENDING checks and supplies an expected row_version
differing from the request's current one fails with ConflictError whose
details carry the expected and the current version, and the store is
returned unchanged — no step, request or audit row is modified. -/
theorem c5_version_mismatch_conflict (s : Store) (requestId actorId so v : Nat)
    (status : ApprovalStatus) (comment : Option String)
    (r : OvertimeRequest) (a : ApprovalStep)
    (hso : (so == 0) = false)
    (hst : (status == ApprovalStatus.PENDING) = false)
    (hreq : findRequest s requestId = some r)
    (hstep : (approvalsOf s requestId).find? (fun x => x.step_order == so) = some a)
    (happr : a.approver_id = some actorId)
    (huser : (s.users.find? (fun u => u.id == actorId)).isNone = false)
    (hpend : a.status = .PENDING)
    (hv : r.row_version ≠ v) :
    decideApproval s requestId actorId so status comment (some v) =
      (s, .error (.conflictError
        "Request was modified by another user. Please refresh and try again."
        (.versionMismatch v r.row_version))) := by
  unfold decideApproval
  rw [hreq, hstep]
  simp only [hso, hst, Bool.false_eq_true, if_false, happr, hpend, huser]
  simp [hv]

/-- C5 (witness): the amended statement applied to the concrete fixture
with a PENDING step and expected version 4 against current version 5. -/
theorem c5_version_mismatch_conflict_witness :
    decideApproval c5wStore 1 7 1 .APPROVED none (some 4) =
      (c5wStore, .error (.conflictError
        "Request was modified by another user. Please refresh and try again."
        (.versionMismatch 4 c5wReq.row_version))) :=
  c5_version_mismatch_conflict c5wStore 1 7 1 4 .APPROVED none c5wReq c5wStep
    (by decide) (by decide) rfl rfl rfl (by decide) rfl (by decide)

/-- C4 (amended): for every decide call that passes the pre-checks on a
PENDING step: a REJECTED decision makes the parent request REJECTED
regardless of remaining steps; an APPROVED decision with no other PENDING
step makes the parent APPROVED with current_level set to max_level;
otherwise the parent request row is returned unchanged — it keeps its
previous status, whether terminal or not — and the steps still PENDING
afterwards are exactly the previously pending ones other than the decided
step, so the lowest-order remaining PENDING step becomes the active one. -/
theorem c4_decide_transitions (s : Store) (requestId actorId so : Nat)
    (status : ApprovalStatus) (comment : Option String) (rv : Option Nat)
    (r : OvertimeRequest) (a : ApprovalStep)
    (hso : (so == 0) = false)
    (hst : (status == ApprovalStatus.PENDING) = false)
    (hreq : findRequest s requestId = some r)
    (hstep : (approvalsOf s requestId).find? (fun x => x.step_order == so) = some a)
    (happr : a.approver_id = some actorId)
    (huser : (s.users.find? (fun u => u.id == actorId)).isNone = false)
    (hpend : a.status = .PENDING)
    (hver : rv = none ∨ rv = some r.row_version) :
    ∃ res, (decideApproval s requestId actorId so status comment rv).2 = .ok res ∧
      res.isFinalApproval = (pendAfter s r.id a.id).isEmpty ∧
      (status = .REJECTED →
        res.request.status = .REJECTED ∧ res.request.row_version = r.row_version + 1) ∧
      (status = .APPROVED → pendAfter s r.id a.id = [] →
        res.request.status = .APPROVED ∧ res.request.current_level = r.max_level ∧
        res.request.row_version = r.row_version + 1) ∧
      ((status = .APPROVED → pendAfter s r.id a.id ≠ []) → status ≠ .REJECTED →
        res.request = r) ∧
      (approvalsOf (decideApproval s requestId actorId so status comment rv).1 r.id).filter
        (fun x => x.status == ApprovalStatus.PENDING) = pendAfter s r.id a.id := by
  rw [decideApproval_success s requestId actorId so status comment rv r a
    hso hst hreq hstep happr huser hpend hver]
  exact decideTransaction_branches s r a actorId so status comment hst

/-- C4 (witness): the amended statement applied to the c4Store fixture,
deciding the PENDING step 2 with APPROVED while step 3 stays PENDING. -/
theorem c4_decide_transitions_witness :
    ∃ res, (decideApproval c4Store 1 7 2 .APPROVED none none).2 = .ok res ∧
      res.isFinalApproval = (pendAfter c4Store c4Req.id c4Step2.id).isEmpty ∧
      (ApprovalStatus.APPROVED = ApprovalStatus.REJECTED →
        res.request.status = .REJECTED ∧ res.request.row_version = c4Req.row_version + 1) ∧
      (ApprovalStatus.APPROVED = ApprovalStatus.APPROVED →
        pendAfter c4Store c4Req.id c4Step2.id = [] →
        res.request.status = .APPROVED ∧ res.request.current_level = c4Req.max_level ∧
        res.request.row_version = c4Req.row_version + 1) ∧
      ((ApprovalStatus.APPROVED = ApprovalStatus.APPROVED →
        pendAfter c4Store c4Req.id c4Step2.id ≠ []) →
        ApprovalStatus.APPROVED ≠ ApprovalStatus.REJECTED → res.request = c4Req) ∧
      (approvalsOf (decideApproval c4Store 1 7 2 .APPROVED none none).1 c4Req.id).filter
        (fun x => x.status == ApprovalStatus.PENDING) =
          pendAfter c4Store c4Req.id c4Step2.id :=
  c4_decide_transitions c4Store 1 7 2 .APPROVED none none c4Req c4Step2
    (by decide) (by decide) rfl rfl rfl (by decide) rfl (Or.inl rfl)

set_option maxRecDepth 100000

/-- C3 (counterexample): the audit entry appended by deciding c3Step in
c3Store stores as content hash the SHA-256 of JSON.stringify of the diff
payload alone; it differs from the SHA-256 of the canonical serialization
of action, actor, diff and previous_hash that the claim requires (the
hashed text mentions neither the actor nor the previous hash). -/
theorem c3_counterexample :
    ((decideApproval c3Store 1 7 1 .APPROVED none none).1.audits.getLast?).map
      entryMatchesSpecHash = some false := by
  decide

/-- C3 (amended): in every reachable store each entity's audit chain is
correctly linked — previous_sha256 equals the content hash of the
immediately preceding entry for the same entity, null exactly when no
prior entry exists — and every audit entry appended by a successful
decide call has content hash SHA-256 of its own serialized diff payload
(not of the canonical action/actor/diff/previous_hash object). -/
theorem c3_hash_of_diff_and_chain_linked (s : Store) (h : Reachable s) :
    (∀ t eid, chainOk (entriesFor s t eid) none = true) ∧
    (∀ requestId actorId so status comment rv s2 res,
      decideApproval s requestId actorId so status comment rv = (s2, Except.ok res) →
      ∃ e, s2.audits = s.audits ++ [e] ∧ e.sha256 = sha256hex e.diff ∧
        e.previous_sha256 = chainTip (entriesFor s e.entity_table e.entity_id) none) := by
  refine ⟨(reachable_inv h).chainsOk, ?_⟩
  intro requestId actorId so status comment rv s2 res heq
  unfold decideApproval at heq
  split at heq
  · simp at heq
  · split at heq
    · simp at heq
    · split at heq
      · simp at heq
      · next overtimeRequest hreq =>
        split at heq
        · simp at heq
        · next approvalStep hstep =>
          split at heq
          · simp at heq
          · split at heq
            · simp at heq
            · split at heq
              · simp at heq
              · have hsha : ∀ x ∈ entriesFor s "ApprovalStep" approvalStep.id,
                    x.sha256 ≠ "" :=
                  fun x hx => (reachable_inv h).shaOk x (List.mem_filter.mp hx).1
                split at heq
                · split at heq
                  · simp at heq
                  · obtain ⟨e, he1, het, hei, he2, he3⟩ :=
                      decideTransaction_audits s overtimeRequest approvalStep
                        actorId so status comment hsha
                    have hs2 : (decideTransaction s overtimeRequest approvalStep
                        actorId so status comment).1 = s2 := by rw [heq]
                    refine ⟨e, ?_, he2, ?_⟩
                    · rw [← hs2]
                      exact he1
                    · rw [het, hei]
                      exact he3
                · obtain ⟨e, he1, het, hei, he2, he3⟩ :=
                    decideTransaction_audits s overtimeRequest approvalStep
                      actorId so status comment hsha
                  have hs2 : (decideTransaction s overtimeRequest approvalStep
                      actorId so status comment).1 = s2 := by rw [heq]
                  refine ⟨e, ?_, he2, ?_⟩
                  · rw [← hs2]
                    exact he1
                  · rw [het, hei]
                    exact he3

/-- C3 (witness): the amended statement applied to a concrete reachable
store. -/
theorem c3_hash_of_diff_and_chain_linked_witness :
    chainOk (entriesFor emptyStore0 "OvertimeRequest" 1) none = true :=
  (c3_hash_of_diff_and_chain_linked _ (Reachable.init [] [] [] 0)).1 "OvertimeRequest" 1

/-- C7: once a first call to the idempotency gate with a fresh key has
completed, every later call with the same key — under any arguments and
any wrapped operation — returns the first call's cached response with the
duplicate flag set and leaves the store unchanged, so the wrapped
operation runs at most once per key. The wrapped operation is assumed not
to write the IdempotencyKey table itself, as the submit transaction it
guards does not. -/
theorem c7_gate_executes_operation_at_most_once (s : Store) (key : String)
    (ownerId : Nat) (path : String) (fn : Store → Store × String) (now : Nat)
    (hkey : s.idempotencyKeys.find? (fun r => r.key == key) = none)
    (hfn : ∀ st, ((fn st).1).idempotencyKeys = st.idempotencyKeys) :
    ∀ (ownerId2 : Nat) (path2 : String) (fn2 : Store → Store × String) (now2 : Nat),
      runWithIdempotency (runWithIdempotency s key ownerId path fn now).1 key
          ownerId2 path2 fn2 now2 =
        ((runWithIdempotency s key ownerId path fn now).1,
         { duplicate := true,
           response := (runWithIdempotency s key ownerId path fn now).2.response }) := by
  intro ownerId2 path2 fn2 now2
  unfold runWithIdempotency
  rw [hkey]
  dsimp only
  cases hfs : fn { s with idempotencyKeys := s.idempotencyKeys ++
      [{ key := key, owner_id := ownerId, method := "POST", path := path,
         request_hash := none, response_body := none, used_at := none }] } with
  | mk s2 result =>
    dsimp only
    have hs2keys : s2.idempotencyKeys = s.idempotencyKeys ++
        [{ key := key, owner_id := ownerId, method := "POST", path := path,
           request_hash := none, response_body := none, used_at := none }] := by
      have := hfn { s with idempotencyKeys := s.idempotencyKeys ++
        [{ key := key, owner_id := ownerId, method := "POST", path := path,
           request_hash := none, response_body := none, used_at := none }] }
      rw [hfs] at this
      exact this
    rw [hs2keys]
    rw [find?_key_after_update s.idempotencyKeys key now result hkey _ rfl]

/-- C7 (witness): the statement applied to the empty store with a
concrete wrapped operation. -/
theorem c7_gate_executes_operation_at_most_once_witness :
    runWithIdempotency
        (runWithIdempotency emptyStore0 "k1" 5 "/api/v1/overtime-requests"
          (fun st => (st, "resp")) 100).1 "k1" 6 "/other"
        (fun st => (st, "other")) 200 =
      ((runWithIdempotency emptyStore0 "k1" 5 "/api/v1/overtime-requests"
          (fun st => (st, "resp")) 100).1,
       { duplicate := true,
         response := (runWithIdempotency emptyStore0 "k1" 5 "/api/v1/overtime-requests"
           (fun st => (st, "resp")) 100).2.response }) :=
  c7_gate_executes_operation_at_most_once emptyStore0 "k1" 5 "/api/v1/overtime-requests"
    (fun st => (st, "resp")) 100 rfl (fun _ => rfl) 6 "/other"
    (fun st => (st, "other")) 200

/-- C8: the business-rule validator accumulates one message per violated
rule and never stops at the first hit — each violated rule contributes
its message to the list whatever the other rules do — and a submit whose
validation reports any violation raises BusinessRuleViolation carrying
the entire list. -/
theorem c8_validation_enumerates_all_violations (s : Store)
    (userId startT endT now : Nat) (reason : Option String) (key : String)
    (hlt : startT < endT)
    (hkey : s.idempotencyKeys.find? (fun k => k.key == key) = none) :
    ((getAttendanceLogs s userId startT endT).isEmpty = true →
      noAttendanceMsg ∈ validateOvertimeRequest s userId startT endT (endT - startT) now) ∧
    ((overlapsStrict s userId startT endT).isEmpty = false →
      overlapMsg ∈ validateOvertimeRequest s userId startT endT (endT - startT) now) ∧
    (endT - startT > maxOvertimePerDay →
      dailyLimitMsg ∈ validateOvertimeRequest s userId startT endT (endT - startT) now) ∧
    (weeklyMinutes s userId startT + (endT - startT) > maxOvertimePerWeek →
      weeklyLimitMsg (weeklyMinutes s userId startT + (endT - startT)) ∈
        validateOvertimeRequest s userId startT endT (endT - startT) now) ∧
    (daysSinceWork now startT > (submissionDeadlineDays : Int) →
      deadlineMsg ∈ validateOvertimeRequest s userId startT endT (endT - startT) now) ∧
    (validateOvertimeRequest s userId startT endT (endT - startT) now ≠ [] →
      submitOvertimeRequest s userId (some key) (some startT) (some endT) reason now =
        (s, .error (.businessRuleViolation "Overtime validation failed"
          (validateOvertimeRequest s userId startT endT (endT - startT) now)))) := by
  refine ⟨?_, ?_, ?_, ?_, ?_, ?_⟩
  · intro hx
    unfold validateOvertimeRequest
    simp [hx]
  · intro hx
    unfold validateOvertimeRequest
    simp [hx]
  · intro hx
    unfold validateOvertimeRequest
    simp [hx]
  · intro hx
    unfold validateOvertimeRequest
    simp [hx]
  · intro hx
    unfold validateOvertimeRequest
    simp [hx]
  · intro hne
    exact submit_validation_error s userId startT endT now key reason hkey hlt hne

/-- C8 (witness): a submission violating both the daily and the weekly
cap reports both messages, and the raised error carries the whole list. -/
theorem c8_validation_enumerates_all_violations_witness :
    (dailyLimitMsg ∈ validateOvertimeRequest c8Store 5 0 300 (300 - 0) 100 ∧
     weeklyLimitMsg (weeklyMinutes c8Store 5 0 + (300 - 0)) ∈
       validateOvertimeRequest c8Store 5 0 300 (300 - 0) 100) ∧
    submitOvertimeRequest c8Store 5 (some "k8") (some 0) (some 300) none 100 =
      (c8Store, .error (.businessRuleViolation "Overtime validation failed"
        (validateOvertimeRequest c8Store 5 0 300 (300 - 0) 100))) := by
  have h := c8_validation_enumerates_all_violations c8Store 5 0 300 100 none "k8"
    (by decide) rfl
  refine ⟨⟨h.2.2.1 (by decide), h.2.2.2.1 (by decide)⟩, ?_⟩
  exact h.2.2.2.2.2 (by decide)

/-- C9: spec-modelled verifyChain — the repository exposes only its
contract — returns valid for every entity after any sequence of core
operations from an initial store: the per-entity hash chains of reachable
stores are always correctly linked. -/
theorem c9_verifyChain_valid_on_reachable_stores (s : Store) (t : String)
    (eid : Nat) (h : Reachable s) : verifyChain s t eid = .valid :=
  verifyChainWalk_valid _ _ _ ((reachable_inv h).chainsOk t eid)

/-- C9 (witness): verifyChain on a store reached by one submit from an
initial store. -/
theorem c9_verifyChain_valid_witness :
    verifyChain (submitOvertimeRequest c9Init 5 (some "k9") (some 60) (some 120)
      none 100).1 "OvertimeRequest" 7 = .valid :=
  c9_verifyChain_valid_on_reachable_stores _ "OvertimeRequest" 7
    (Reachable.submit 5 (some "k9") (some 60) (some 120) none 100
      (Reachable.init [] [] [{ userId := 5, check_in := 80, verified := true }] 7))

/-- C10: every approval step created by the no-configured-chain fallback
has approver_id null, and a decide call on any step whose approver_id is
null fails with AuthorizationError for every authenticated actor, leaving
the store unchanged — fallback-created steps can never be decided through
the approval endpoint. -/
theorem c10_fallback_steps_cannot_be_decided :
    (∀ rid base : Nat, ∀ st ∈ fallbackSteps rid base, st.approver_id = none) ∧
    (∀ (s : Store) (requestId actorId so : Nat) (status : ApprovalStatus)
       (comment : Option String) (rv : Option Nat)
       (r : OvertimeRequest) (a : ApprovalStep),
       (so == 0) = false → (status == ApprovalStatus.PENDING) = false →
       findRequest s requestId = some r →
       (approvalsOf s requestId).find? (fun x => x.step_order == so) = some a →
       a.approver_id = none →
       decideApproval s requestId actorId so status comment rv =
         (s, .error (.authorizationError
           "Only the assigned approver can update this step"))) := by
  constructor
  · intro rid base st hst
    simp only [fallbackSteps, List.map_cons, List.map_nil, List.mem_cons,
      List.not_mem_nil, or_false] at hst
    rcases hst with rfl | rfl | rfl <;> rfl
  · intro s requestId actorId so status comment rv r a hso hst hreq hstep hnull
    unfold decideApproval
    rw [hreq, hstep]
    simp only [hso, hst, Bool.false_eq_true, if_false]
    have hcond : (a.approver_id != some actorId) = true := by
      rw [hnull]
      rfl
    rw [if_pos hcond]

/-- C10 (witness): the statement applied to a concrete store holding a
fallback-created step. -/
theorem c10_fallback_steps_cannot_be_decided_witness :
    ({ id := 2, overtimeRequestId := 1, step_order := 1, approver_id := none,
       status := .PENDING, comment := none,
       row_version := 1 } : ApprovalStep).approver_id = none ∧
    decideApproval c10Store 1 7 1 .APPROVED none none =
      (c10Store, .error (.authorizationError
        "Only the assigned approver can update this step")) :=
  ⟨(c10_fallback_steps_cannot_be_decided.1 1 2
      { id := 2, overtimeRequestId := 1, step_order := 1, approver_id := none,
        status := .PENDING, comment := none, row_version := 1 }
      (by decide)),
   c10_fallback_steps_cannot_be_decided.2 c10Store 1 7 1 .APPROVED none none
     c10Req c10Step (by decide) (by decide) rfl rfl rfl⟩

end DES
